import Mathlib

/-!
Verification of the DGL GraphBolt neighbor-sampling and minibatch pipeline
against its natural-language specification.

The development shallowly embeds the two source files
`python/dgl/graphbolt/impl/neighbor_sampler.py` (the `NeighborSampler` /
`LayerNeighborSampler` classes and their `_sample_subgraphs` multi-hop loop)
and `python/dgl/graphbolt/minibatch.py` (the `MiniBatch` dataclass and its
`to_dgl_blocks` transform).

Modelling conventions:
* Tensors of node ids are `List Nat`; feature payloads are opaque `Nat` tokens.
* Python's homogeneous-tensor vs heterogeneous-dict duck typing is a tagged
  union (`NodeData`, `NodePairs`, ...); a Python `dict` is an association list
  with the dict's insertion order.
* The external sampling primitives (`graph.sample_neighbors`,
  `graph.sample_layer_neighbors`) and the imported compaction routine
  `unique_and_compact_node_pairs` are collaborators outside the two source
  files; the sampling-loop functions take them as explicit function arguments
  and the theorems quantify over them.
* Fallible code paths (Python `assert`, duck-typing mismatches that would
  raise) are `Except` / explicit error results.
-/

set_option maxRecDepth 4000

namespace DGLGraphbolt

/-- A 1-D tensor of node ids (global or local numbering). -/
abbrev Tensor := List Nat

/-- Opaque feature payload attached to nodes or edges. -/
abbrev Feature := Nat

/-- A per-hop fanout, after `NeighborSampler.__init__` normalises it to a
tensor (`torch.LongTensor`); entries may be negative sentinels. -/
abbrev Fanout := List Int

/-- Node-id data that is either a homogeneous tensor or a heterogeneous
mapping from node-type name to tensor (Python duck typing made explicit). -/
inductive NodeData where
  | hom : Tensor → NodeData
  | het : List (String × Tensor) → NodeData
deriving DecidableEq, Repr

/-- Edge endpoints: a `(source ids, destination ids)` pair of tensors, or a
mapping from edge-type name to such a pair. -/
inductive NodePairs where
  | hom : Tensor × Tensor → NodePairs
  | het : List (String × (Tensor × Tensor)) → NodePairs
deriving DecidableEq, Repr

/-- Edge-id data: a tensor of original edge ids, or a mapping from edge-type
name to such a tensor. -/
inductive EdgeData where
  | hom : Tensor → EdgeData
  | het : List (String × Tensor) → EdgeData
deriving DecidableEq, Repr

/-- The `graph.metadata` object: node-type name to id mapping (only the key
order is consumed by the code under verification). -/
structure GraphMetadata where
  node_type_to_id : List (String × Nat)

/-- Result object of one call to a sampling primitive; `_sample_subgraphs`
only reads its `node_pairs` field. -/
structure SamplerOutput where
  node_pairs : NodePairs
deriving DecidableEq, Repr

/-- Type of the external per-hop sampling primitives
(`seeds, fanout, replace, prob_name ↦ sampled edges`). -/
abbrev SamplerPrim := NodeData → Fanout → Bool → Option String → SamplerOutput

/-- Type of the imported `unique_and_compact_node_pairs` collaborator:
`(node_pairs, seeds) ↦ (unified compacted node set, locally renumbered
pairs)`. -/
abbrev CompactFn := NodePairs → NodeData → NodeData × NodePairs

/-- The `CSCSamplingGraph` collaborator: metadata plus the two sampling
primitives consumed as black boxes. -/
structure CSCSamplingGraph where
  metadata : GraphMetadata
  sample_neighbors : SamplerPrim
  sample_layer_neighbors : SamplerPrim

/-- The `SampledSubgraphImpl` layer record (class defined outside the two
source files; fields as constructed by `_sample_subgraphs` and consumed by
`to_dgl_blocks`, all optional with `None` defaults as in the dataclass). -/
structure SampledSubgraphImpl where
  node_pairs : NodePairs
  original_column_node_ids : Option NodeData
  original_row_node_ids : Option NodeData
  original_edge_ids : Option EdgeData
deriving DecidableEq, Repr

/-- A fanout as passed to `NeighborSampler.__init__`: either a plain integer
or already a tensor. -/
inductive FanoutSpec where
  | int : Int → FanoutSpec
  | tensor : Fanout → FanoutSpec
deriving DecidableEq, Repr

/-- The `__init__` normalisation: a non-tensor fanout `f` becomes
`torch.LongTensor([int(f)])`; tensors pass through. -/
def FanoutSpec.toTensor : FanoutSpec → Fanout
  | FanoutSpec.int n => [n]
  | FanoutSpec.tensor t => t

/-- The state a `NeighborSampler` (or `LayerNeighborSampler`) instance holds
after `__init__`: the graph, normalised fanouts, flags, and the bound
sampling primitive `self.sampler`. -/
structure NeighborSamplerState where
  graph : CSCSamplingGraph
  fanouts : List Fanout
  replace : Bool
  prob_name : Option String
  sampler : SamplerPrim

/-- `NeighborSampler.__init__`: normalises fanouts and binds
`self.sampler = graph.sample_neighbors`. -/
def NeighborSampler.init (graph : CSCSamplingGraph) (fanouts : List FanoutSpec)
    (replace : Bool) (prob_name : Option String) : NeighborSamplerState :=
  { graph := graph
    fanouts := fanouts.map FanoutSpec.toTensor
    replace := replace
    prob_name := prob_name
    sampler := graph.sample_neighbors }

/-- `LayerNeighborSampler.__init__`: runs the superclass constructor and then
rebinds `self.sampler = graph.sample_layer_neighbors`. -/
def LayerNeighborSampler.init (graph : CSCSamplingGraph) (fanouts : List FanoutSpec)
    (replace : Bool) (prob_name : Option String) : NeighborSamplerState :=
  { NeighborSampler.init graph fanouts replace prob_name with
    sampler := graph.sample_layer_neighbors }

/-- The seed-enrichment step at the top of `_sample_subgraphs`: a dict seed
set is rebuilt over all declared node types, defaulting absent types to an
empty tensor; a tensor seed set passes through unchanged. -/
def enrichSeeds (graph : CSCSamplingGraph) : NodeData → NodeData
  | NodeData.hom t => NodeData.hom t
  | NodeData.het seeds =>
      NodeData.het
        ((graph.metadata.node_type_to_id.map Prod.fst).map
          (fun ntype => (ntype, (seeds.lookup ntype).getD [])))

/-- The `for hop in range(num_layers)` loop of `_sample_subgraphs`, by
recursion on the remaining fanouts. Each iteration samples with the bound
primitive, compacts against the current seeds, builds a layer whose column
ids are the seeds entering the hop and whose row ids are the compacted new
seed set, and inserts the layer at index 0 of the accumulated list. -/
def sampleHops (sampler : SamplerPrim) (replace : Bool) (prob_name : Option String)
    (compact : CompactFn) : List Fanout → NodeData → NodeData × List SampledSubgraphImpl
  | [], seeds => (seeds, [])
  | fanout :: rest, seeds =>
      let subgraph := sampler seeds fanout replace prob_name
      let original_column_node_ids := seeds
      let p := compact subgraph.node_pairs seeds
      let layer : SampledSubgraphImpl :=
        { node_pairs := p.2
          original_column_node_ids := some original_column_node_ids
          original_row_node_ids := some p.1
          original_edge_ids := none }
      let r := sampleHops sampler replace prob_name compact rest p.1
      (r.1, r.2 ++ [layer])

/-- `NeighborSampler._sample_subgraphs`: enrich the seeds, then run the hop
loop; returns the final compacted seed set and the layer list. -/
def NeighborSamplerState.sample_subgraphs (self : NeighborSamplerState)
    (compact : CompactFn) (seeds : NodeData) : NodeData × List SampledSubgraphImpl :=
  sampleHops self.sampler self.replace self.prob_name compact self.fanouts
    (enrichSeeds self.graph seeds)

/-- Reference recursion producing the layers in chronological (hop 0 first)
order, used to state which hop each returned list position belongs to. -/
def sampleHopsChronological (sampler : SamplerPrim) (replace : Bool)
    (prob_name : Option String) (compact : CompactFn) :
    List Fanout → NodeData → NodeData × List SampledSubgraphImpl
  | [], seeds => (seeds, [])
  | fanout :: rest, seeds =>
      let subgraph := sampler seeds fanout replace prob_name
      let p := compact subgraph.node_pairs seeds
      let layer : SampledSubgraphImpl :=
        { node_pairs := p.2
          original_column_node_ids := some seeds
          original_row_node_ids := some p.1
          original_edge_ids := none }
      let r := sampleHopsChronological sampler replace prob_name compact rest p.1
      (r.1, layer :: r.2)

/-- First-occurrence deduplication of a list of node ids. -/
def dedupFirst (l : List Nat) : List Nat :=
  l.foldl (fun acc x => if x ∈ acc then acc else acc ++ [x]) []

/-- Modelled from the spec: `unique_and_compact_node_pairs` is imported from
`graphbolt.utils`, which is not under `src/`. Per spec section 4.1 the
unified compacted node set is a stably deduplicated set covering the current
seed set and the sampled sources, and the edges are remapped to local
indices into that set; only the homogeneous case is needed concretely (the
theorems quantify over the compaction function, this instance only feeds
concrete witness runs). -/
def unique_and_compact_node_pairs (np : NodePairs) (seeds : NodeData) :
    NodeData × NodePairs :=
  match np, seeds with
  | NodePairs.hom sd, NodeData.hom s =>
      let unified := dedupFirst (s ++ sd.1)
      (NodeData.hom unified,
        NodePairs.hom (sd.1.map (fun x => unified.indexOf x),
          sd.2.map (fun x => unified.indexOf x)))
  | np, seeds => (seeds, np)

/-- An edge type as a `(source type, relation, destination type)` triple. -/
abbrev EType := String × String × String

/-- Modelled from the spec: `etype_str_to_tuple` is imported from
`graphbolt.base`, which is not under `src/`. Per the spec and the field
documentation in `minibatch.py`, a heterogeneous edge type is a single
string of format "str:str:str" converted to a triple; behaviour on
malformed strings is unspecified and irrelevant to the claims. -/
def etype_str_to_tuple (etype : String) : EType :=
  match etype.splitOn ":" with
  | [a, b, c] => (a, b, c)
  | _ => (etype, "", "")

/-- Node features of a `MiniBatch`: feature-name keys (homogeneous) or
`(node type, feature name)` keys (heterogeneous). -/
inductive NodeFeats where
  | hom : List (String × Feature) → NodeFeats
  | het : List ((String × String) × Feature) → NodeFeats
deriving DecidableEq, Repr

/-- Per-layer edge features of a `MiniBatch`: feature-name keys
(homogeneous) or `(edge-type string, feature name)` keys (heterogeneous). -/
inductive EdgeFeats where
  | hom : List (String × Feature) → EdgeFeats
  | het : List ((String × String) × Feature) → EdgeFeats
deriving DecidableEq, Repr

/-- Modelled from the spec: `dgl.create_block` and the `DGLBlock` object live
in the downstream DGL library, outside `src/`. Per spec section 4.4 a block
records the bipartite edge list and the source/destination node counts given
to the constructor; the remaining fields are the feature/id frames that
`to_dgl_blocks` subsequently fills by assignment (`srcdata`, per-type
`srcnodes[...].data`, `edata`, and the `dgl.NID` / `dgl.EID` annotations),
kept as separate fields of the record. -/
structure DGLBlock where
  edges_hom : Option (Tensor × Tensor)
  edges_het : List (EType × (Tensor × Tensor))
  num_src_hom : Option Nat
  num_src_het : List (String × Nat)
  num_dst_hom : Option Nat
  num_dst_het : List (String × Nat)
  srcdata : List (String × Feature)
  srcnodes_data : List ((String × String) × Feature)
  edata : List (String × Feature)
  edata_het : List ((EType × String) × Feature)
  srcdata_nid : Option NodeData
  srcnodes_nid : List (String × Tensor)
  edata_eid : Option EdgeData
  edata_eid_het : List (EType × Tensor)
deriving DecidableEq, Repr

/-- `dgl.create_block` for a homogeneous layer: records the local edge list
and node counts; all feature frames start empty. -/
def create_block_hom (node_pairs : Tensor × Tensor) (num_src_nodes : Nat)
    (num_dst_nodes : Nat) : DGLBlock :=
  { edges_hom := some node_pairs
    edges_het := []
    num_src_hom := some num_src_nodes
    num_src_het := []
    num_dst_hom := some num_dst_nodes
    num_dst_het := []
    srcdata := []
    srcnodes_data := []
    edata := []
    edata_het := []
    srcdata_nid := none
    srcnodes_nid := []
    edata_eid := none
    edata_eid_het := [] }

/-- `dgl.create_block` for a heterogeneous layer: per-edge-type edge lists
and per-node-type node counts; all feature frames start empty. -/
def create_block_het (node_pairs : List (EType × (Tensor × Tensor)))
    (num_src_nodes : List (String × Nat)) (num_dst_nodes : List (String × Nat)) :
    DGLBlock :=
  { edges_hom := none
    edges_het := node_pairs
    num_src_hom := none
    num_src_het := num_src_nodes
    num_dst_hom := none
    num_dst_het := num_dst_nodes
    srcdata := []
    srcnodes_data := []
    edata := []
    edata_het := []
    srcdata_nid := none
    srcnodes_nid := []
    edata_eid := none
    edata_eid_het := [] }

/-- The `MiniBatch` dataclass (fields optional with `None` defaults). -/
structure MiniBatch where
  seed_nodes : Option NodeData
  node_pairs : Option NodePairs
  labels : Option NodeData
  negative_srcs : Option NodeData
  negative_dsts : Option NodeData
  sampled_subgraphs : Option (List SampledSubgraphImpl)
  input_nodes : Option NodeData
  node_features : Option NodeFeats
  edge_features : Option (List EdgeFeats)
  compacted_node_pairs : Option NodePairs
  compacted_negative_srcs : Option NodeData
  compacted_negative_dsts : Option NodeData
deriving DecidableEq, Repr

/-- The two fatal outcomes of `to_dgl_blocks`: a Python `assert` failure
(with its message), or an exception raised by operating on a value of the
wrong shape (duck-typing mismatch, e.g. `.items()` on a tensor). -/
inductive BlockErr where
  | assertFail : String → BlockErr
  | typeErr : BlockErr
deriving DecidableEq, Repr

/-- Result of `MiniBatch.to_dgl_blocks`: the early `return None`, a raised
error, or the constructed block list. -/
inductive BlocksResult where
  | noneResult : BlocksResult
  | fail : BlockErr → BlocksResult
  | blocks : List DGLBlock → BlocksResult
deriving DecidableEq, Repr

/-- `isinstance(node_pairs, Dict)` — the heterogeneity test applied to the
first sampled subgraph. -/
def isHetPairs : NodePairs → Bool
  | NodePairs.het _ => true
  | NodePairs.hom _ => false

/-- Whether a result is a raised assertion failure. -/
def BlocksResult.isAssertFail : BlocksResult → Bool
  | BlocksResult.fail (BlockErr.assertFail _) => true
  | _ => false

/-- One iteration of the block-construction loop of `to_dgl_blocks`: assert
both original-id fields are present, then build the block from the layer's
local edge list and the original-id counts. -/
def buildBlock (is_heterogeneous : Bool) (subgraph : SampledSubgraphImpl) :
    Except BlockErr DGLBlock :=
  match subgraph.original_row_node_ids with
  | none =>
      Except.error (BlockErr.assertFail
        "Missing `original_row_node_ids` in sampled subgraph.")
  | some row_ids =>
      match subgraph.original_column_node_ids with
      | none =>
          Except.error (BlockErr.assertFail
            "Missing `original_column_node_ids` in sampled subgraph.")
      | some col_ids =>
          if is_heterogeneous then
            match subgraph.node_pairs, row_ids, col_ids with
            | NodePairs.het np, NodeData.het rows, NodeData.het cols =>
                Except.ok (create_block_het
                  (np.map (fun kv => (etype_str_to_tuple kv.1, kv.2)))
                  (rows.map (fun kv => (kv.1, kv.2.length)))
                  (cols.map (fun kv => (kv.1, kv.2.length))))
            | _, _, _ => Except.error BlockErr.typeErr
          else
            match subgraph.node_pairs, row_ids, col_ids with
            | NodePairs.hom np, NodeData.hom rows, NodeData.hom cols =>
                Except.ok (create_block_hom np rows.length cols.length)
            | _, _, _ => Except.error BlockErr.typeErr

/-- The `for subgraph in self.sampled_subgraphs` construction loop; the first
raised error aborts the whole transform. -/
def buildBlocks (is_heterogeneous : Bool) :
    List SampledSubgraphImpl → Except BlockErr (List DGLBlock)
  | [] => Except.ok []
  | sg :: rest =>
      match buildBlock is_heterogeneous sg with
      | Except.error e => Except.error e
      | Except.ok b =>
          match buildBlocks is_heterogeneous rest with
          | Except.error e => Except.error e
          | Except.ok bs => Except.ok (b :: bs)

/-- Apply an update to `blocks[0]`, leaving all other blocks unchanged. -/
def updateBlock0 (f : DGLBlock → DGLBlock) : List DGLBlock → List DGLBlock
  | [] => []
  | b :: bs => f b :: bs

/-- Heterogeneous node-feature loop: each `(node type, feature name)` entry
is assigned into the source-node frame of `blocks[0]`. -/
def assignNodeFeatsHet (nf : List ((String × String) × Feature))
    (blocks : List DGLBlock) : List DGLBlock :=
  nf.foldl
    (fun bs kv =>
      updateBlock0 (fun b => { b with srcnodes_data := b.srcnodes_data ++ [kv] }) bs)
    blocks

/-- Homogeneous node-feature loop: each feature is assigned into
`blocks[0].srcdata`. -/
def assignNodeFeatsHom (nf : List (String × Feature))
    (blocks : List DGLBlock) : List DGLBlock :=
  nf.foldl
    (fun bs kv => updateBlock0 (fun b => { b with srcdata := b.srcdata ++ [kv] }) bs)
    blocks

/-- The `if self.node_features:` guard plus loop of the heterogeneous branch;
a non-empty homogeneous feature dict cannot be destructured into
`(node_type, feature_name)` keys and raises. -/
def hetNodeFeatsPhase (nf : Option NodeFeats) (blocks : List DGLBlock) :
    Except BlockErr (List DGLBlock) :=
  match nf with
  | none => Except.ok blocks
  | some (NodeFeats.het m) => Except.ok (assignNodeFeatsHet m blocks)
  | some (NodeFeats.hom m) =>
      if m.isEmpty then Except.ok blocks else Except.error BlockErr.typeErr

/-- The `if self.node_features:` guard plus loop of the homogeneous branch;
non-empty tuple-keyed features cannot be assigned into `srcdata` and raise. -/
def homNodeFeatsPhase (nf : Option NodeFeats) (blocks : List DGLBlock) :
    Except BlockErr (List DGLBlock) :=
  match nf with
  | none => Except.ok blocks
  | some (NodeFeats.hom m) => Except.ok (assignNodeFeatsHom m blocks)
  | some (NodeFeats.het m) =>
      if m.isEmpty then Except.ok blocks else Except.error BlockErr.typeErr

/-- `for block, edge_feature in zip(blocks, self.edge_features)` in the
heterogeneous branch: per-layer features land in that layer's block. -/
def assignEdgeFeatsHet :
    List DGLBlock → List EdgeFeats → Except BlockErr (List DGLBlock)
  | blocks, [] => Except.ok blocks
  | [], _ => Except.ok []
  | b :: bs, ef :: efs =>
      match ef with
      | EdgeFeats.het m =>
          match assignEdgeFeatsHet bs efs with
          | Except.error e => Except.error e
          | Except.ok bs2 =>
              Except.ok ({ b with edata_het :=
                  (b.edata_het
                    ++ m.map (fun kv => ((etype_str_to_tuple kv.1.1, kv.1.2), kv.2))) } :: bs2)
      | EdgeFeats.hom m =>
          if m.isEmpty then
            match assignEdgeFeatsHet bs efs with
            | Except.error e => Except.error e
            | Except.ok bs2 => Except.ok (b :: bs2)
          else Except.error BlockErr.typeErr

/-- `for block, edge_feature in zip(blocks, self.edge_features)` in the
homogeneous branch. -/
def assignEdgeFeatsHom :
    List DGLBlock → List EdgeFeats → Except BlockErr (List DGLBlock)
  | blocks, [] => Except.ok blocks
  | [], _ => Except.ok []
  | b :: bs, ef :: efs =>
      match ef with
      | EdgeFeats.hom m =>
          match assignEdgeFeatsHom bs efs with
          | Except.error e => Except.error e
          | Except.ok bs2 => Except.ok ({ b with edata := b.edata ++ m } :: bs2)
      | EdgeFeats.het m =>
          if m.isEmpty then
            match assignEdgeFeatsHom bs efs with
            | Except.error e => Except.error e
            | Except.ok bs2 => Except.ok (b :: bs2)
          else Except.error BlockErr.typeErr

/-- The `if self.edge_features:` guard of the heterogeneous branch. -/
def hetEdgeFeatsPhase (efs : Option (List EdgeFeats)) (blocks : List DGLBlock) :
    Except BlockErr (List DGLBlock) :=
  match efs with
  | none => Except.ok blocks
  | some efs => assignEdgeFeatsHet blocks efs

/-- The `if self.edge_features:` guard of the homogeneous branch. -/
def homEdgeFeatsPhase (efs : Option (List EdgeFeats)) (blocks : List DGLBlock) :
    Except BlockErr (List DGLBlock) :=
  match efs with
  | none => Except.ok blocks
  | some efs => assignEdgeFeatsHom blocks efs

/-- Heterogeneous `dgl.NID` assignment: the outermost layer's per-type
original row ids are attached to `blocks[0]`; iterating `.items()` over a
non-dict raises. -/
def assignNidHet (sg0 : SampledSubgraphImpl) (blocks : List DGLBlock) :
    Except BlockErr (List DGLBlock) :=
  match sg0.original_row_node_ids with
  | some (NodeData.het rows) =>
      Except.ok (updateBlock0
        (fun b => { b with srcnodes_nid := b.srcnodes_nid ++ rows }) blocks)
  | _ => Except.error BlockErr.typeErr

/-- Heterogeneous `dgl.EID` assignment, zipping blocks with subgraphs; the
Python truthiness test `if subgraph.original_edge_ids:` skips `None` and
empty dicts, and taking the truth value of a tensor raises. -/
def assignEidHet :
    List DGLBlock → List SampledSubgraphImpl → Except BlockErr (List DGLBlock)
  | blocks, [] => Except.ok blocks
  | [], _ => Except.ok []
  | b :: bs, sg :: sgs =>
      match sg.original_edge_ids with
      | none =>
          match assignEidHet bs sgs with
          | Except.error e => Except.error e
          | Except.ok bs2 => Except.ok (b :: bs2)
      | some (EdgeData.het m) =>
          if m.isEmpty then
            match assignEidHet bs sgs with
            | Except.error e => Except.error e
            | Except.ok bs2 => Except.ok (b :: bs2)
          else
            match assignEidHet bs sgs with
            | Except.error e => Except.error e
            | Except.ok bs2 =>
                Except.ok ({ b with edata_eid_het :=
                    (b.edata_eid_het
                      ++ m.map (fun kv => (etype_str_to_tuple kv.1, kv.2))) } :: bs2)
      | some (EdgeData.hom _) => Except.error BlockErr.typeErr

/-- Homogeneous `dgl.EID` assignment, zipping blocks with subgraphs; the
guard here is `is not None`, and the edge-id object is stored as given. -/
def assignEidHom : List DGLBlock → List SampledSubgraphImpl → List DGLBlock
  | blocks, [] => blocks
  | [], _ => []
  | b :: bs, sg :: sgs =>
      (match sg.original_edge_ids with
       | none => b
       | some e => { b with edata_eid := some e }) :: assignEidHom bs sgs

/-- The heterogeneous feature/id-assignment sequence of `to_dgl_blocks`:
node features, edge features, `dgl.NID`, `dgl.EID`, in source order. -/
def toBlocksHet (mb : MiniBatch) (sg0 : SampledSubgraphImpl)
    (subgraphs : List SampledSubgraphImpl) (blocks : List DGLBlock) :
    Except BlockErr (List DGLBlock) :=
  match hetNodeFeatsPhase mb.node_features blocks with
  | Except.error e => Except.error e
  | Except.ok blocks1 =>
      match hetEdgeFeatsPhase mb.edge_features blocks1 with
      | Except.error e => Except.error e
      | Except.ok blocks2 =>
          match assignNidHet sg0 blocks2 with
          | Except.error e => Except.error e
          | Except.ok blocks3 => assignEidHet blocks3 subgraphs

/-- The homogeneous feature/id-assignment sequence of `to_dgl_blocks`:
node features, edge features, `blocks[0].srcdata[dgl.NID]`, `dgl.EID`. -/
def toBlocksHom (mb : MiniBatch) (sg0 : SampledSubgraphImpl)
    (subgraphs : List SampledSubgraphImpl) (blocks : List DGLBlock) :
    Except BlockErr (List DGLBlock) :=
  match homNodeFeatsPhase mb.node_features blocks with
  | Except.error e => Except.error e
  | Except.ok blocks1 =>
      match homEdgeFeatsPhase mb.edge_features blocks1 with
      | Except.error e => Except.error e
      | Except.ok blocks2 =>
          Except.ok (assignEidHom
            (updateBlock0 (fun b => { b with srcdata_nid := sg0.original_row_node_ids })
              blocks2)
            subgraphs)

/-- `MiniBatch.to_dgl_blocks`: `None` when `sampled_subgraphs` is falsy,
otherwise build one block per layer (asserting the original-id fields) and
run the feature-assignment sequence of the branch selected by the first
layer's `node_pairs` type. -/
def MiniBatch.to_dgl_blocks (self : MiniBatch) : BlocksResult :=
  match self.sampled_subgraphs with
  | none => BlocksResult.noneResult
  | some [] => BlocksResult.noneResult
  | some (sg0 :: rest) =>
      match buildBlocks (isHetPairs sg0.node_pairs) (sg0 :: rest) with
      | Except.error e => BlocksResult.fail e
      | Except.ok blocks =>
          match (if isHetPairs sg0.node_pairs then
                   toBlocksHet self sg0 (sg0 :: rest) blocks
                 else toBlocksHom self sg0 (sg0 :: rest) blocks) with
          | Except.error e => BlocksResult.fail e
          | Except.ok blocks => BlocksResult.blocks blocks

/-- Whether an optional original-id field matches the branch selected by the
heterogeneity flag (a `None` field is allowed; it is what the asserts catch). -/
def idShapeOK (is_het : Bool) : Option NodeData → Bool
  | none => true
  | some (NodeData.hom _) => !is_het
  | some (NodeData.het _) => is_het

/-- Whether an edge list matches the branch selected by the heterogeneity
flag. -/
def pairsShapeOK (is_het : Bool) : NodePairs → Bool
  | NodePairs.hom _ => !is_het
  | NodePairs.het _ => is_het

/-- Well-shapedness of one layer for the selected branch: the edge list and
any present original-id fields are of that branch's kind, so the only
possible construction failure is a missing-id assertion. -/
def layerShapeOK (is_het : Bool) (sg : SampledSubgraphImpl) : Bool :=
  pairsShapeOK is_het sg.node_pairs
    && idShapeOK is_het sg.original_row_node_ids
    && idShapeOK is_het sg.original_column_node_ids

/-- The homogeneous feature dict carried by an optional `NodeFeats`
(empty for anything else). -/
def nodeFeatsHomOf : Option NodeFeats → List (String × Feature)
  | some (NodeFeats.hom m) => m
  | _ => []

/-- The heterogeneous feature dict carried by an optional `NodeFeats`
(empty for anything else). -/
def nodeFeatsHetOf : Option NodeFeats → List ((String × String) × Feature)
  | some (NodeFeats.het m) => m
  | _ => []

/-- The homogeneous per-layer edge features carried by an optional
`EdgeFeats` (empty for anything else). -/
def edataHomOf : Option EdgeFeats → List (String × Feature)
  | some (EdgeFeats.hom m) => m
  | _ => []

/-- The heterogeneous per-layer edge features carried by an optional
`EdgeFeats`, with edge-type strings converted to triples. -/
def edataHetOf : Option EdgeFeats → List ((EType × String) × Feature)
  | some (EdgeFeats.het m) =>
      m.map (fun kv => ((etype_str_to_tuple kv.1.1, kv.1.2), kv.2))
  | _ => []

/-- The heterogeneous `dgl.EID` entries contributed by an optional edge-id
field (empty for `None` or an empty dict). -/
def eidHetOf : Option EdgeData → List (EType × Tensor)
  | some (EdgeData.het m) => m.map (fun kv => (etype_str_to_tuple kv.1, kv.2))
  | _ => []

/-- The homogeneous `dgl.EID` update contributed by an optional edge-id
field. -/
def applyEidHom (o : Option EdgeData) (b : DGLBlock) : DGLBlock :=
  match o with
  | none => b
  | some e => { b with edata_eid := some e }

/-- The per-type row ids carried by an optional original-row-id field. -/
def rowsHetOf : Option NodeData → List (String × Tensor)
  | some (NodeData.het m) => m
  | _ => []

/-- A deterministic concrete sampling primitive used to instantiate the
theorems on concrete runs: every seed `x` contributes the edge
`(x + 1, position of x)`. -/
def primEx : SamplerPrim := fun seeds _fanout _replace _prob =>
  { node_pairs :=
      match seeds with
      | NodeData.hom s => NodePairs.hom (s.map (fun x => x + 1), List.range s.length)
      | NodeData.het _ => NodePairs.het [] }

/-- A concrete homogeneous graph collaborator. -/
def gEx : CSCSamplingGraph :=
  { metadata := { node_type_to_id := [] }
    sample_neighbors := primEx
    sample_layer_neighbors := primEx }

/-- A concrete heterogeneous graph collaborator declaring two node types. -/
def gHet : CSCSamplingGraph :=
  { metadata := { node_type_to_id := [("user", 0), ("item", 1)] }
    sample_neighbors := primEx
    sample_layer_neighbors := primEx }

/-- A concrete `NeighborSampler` instance over `gEx` with two hops. -/
def stEx : NeighborSamplerState :=
  NeighborSampler.init gEx [FanoutSpec.int 2, FanoutSpec.int 2] false none

/-- A concrete `NeighborSampler` instance over the heterogeneous graph. -/
def stHet : NeighborSamplerState :=
  NeighborSampler.init gHet [FanoutSpec.int 2] false none

/-- A concrete run of `_sample_subgraphs` on seed node `0`. -/
def runEx : NodeData × List SampledSubgraphImpl :=
  stEx.sample_subgraphs unique_and_compact_node_pairs (NodeData.hom [0])

/-- The layer `runEx` produces for its second (outermost) hop. -/
def sgOuterEx : SampledSubgraphImpl :=
  { node_pairs := NodePairs.hom ([1, 2], [0, 1])
    original_column_node_ids := some (NodeData.hom [0, 1])
    original_row_node_ids := some (NodeData.hom [0, 1, 2])
    original_edge_ids := none }

/-- The layer `runEx` produces for its first (innermost) hop. -/
def sgInnerEx : SampledSubgraphImpl :=
  { node_pairs := NodePairs.hom ([1], [0])
    original_column_node_ids := some (NodeData.hom [0])
    original_row_node_ids := some (NodeData.hom [0, 1])
    original_edge_ids := none }

/-- The minibatch assembled from `runEx` as spec section 4.3 prescribes:
the layer list together with the final compacted node set as `input_nodes`. -/
def mbEx : MiniBatch :=
  { seed_nodes := some (NodeData.hom [0])
    node_pairs := none
    labels := none
    negative_srcs := none
    negative_dsts := none
    sampled_subgraphs := some runEx.2
    input_nodes := some runEx.1
    node_features := none
    edge_features := none
    compacted_node_pairs := none
    compacted_negative_srcs := none
    compacted_negative_dsts := none }

/-- `mbEx` with node and edge features attached. -/
def mbFeat : MiniBatch :=
  { mbEx with
    node_features := some (NodeFeats.hom [("x", 7)])
    edge_features := some [EdgeFeats.hom [("w", 9)], EdgeFeats.hom [("u", 4)]] }

/-- A layer whose `original_row_node_ids` was left `None`. -/
def sgMissingEx : SampledSubgraphImpl :=
  { node_pairs := NodePairs.hom ([], [])
    original_column_node_ids := some (NodeData.hom [])
    original_row_node_ids := none
    original_edge_ids := none }

/-- A minibatch containing the defective layer `sgMissingEx`. -/
def mbMissing : MiniBatch :=
  { mbEx with sampled_subgraphs := some [sgMissingEx] }

/-- A minibatch with no sampled subgraphs at all. -/
def mbNone : MiniBatch :=
  { mbEx with sampled_subgraphs := none }

/-- The block `to_dgl_blocks` builds for `mbEx`'s outermost layer. -/
def blkEx0 : DGLBlock :=
  { create_block_hom ([1, 2], [0, 1]) 3 2 with
    srcdata_nid := some (NodeData.hom [0, 1, 2]) }

/-- The block `to_dgl_blocks` builds for `mbEx`'s innermost layer. -/
def blkEx1 : DGLBlock := create_block_hom ([1], [0]) 2 1

/-- The block `to_dgl_blocks` builds for `mbFeat`'s outermost layer. -/
def blkFeat0 : DGLBlock :=
  { blkEx0 with srcdata := [("x", 7)], edata := [("w", 9)] }

/-- The block `to_dgl_blocks` builds for `mbFeat`'s innermost layer. -/
def blkFeat1 : DGLBlock := { blkEx1 with edata := [("u", 4)] }

/-! ## Unfolding equations for the hop loop -/

theorem sampleHops_nil (sampler : SamplerPrim) (replace : Bool)
    (prob_name : Option String) (compact : CompactFn) (seeds : NodeData) :
    sampleHops sampler replace prob_name compact [] seeds = (seeds, []) := rfl

theorem sampleHops_cons (sampler : SamplerPrim) (replace : Bool)
    (prob_name : Option String) (compact : CompactFn) (f : Fanout)
    (rest : List Fanout) (seeds : NodeData) :
    sampleHops sampler replace prob_name compact (f :: rest) seeds
      = ((sampleHops sampler replace prob_name compact rest
            (compact (sampler seeds f replace prob_name).node_pairs seeds).1).1,
         (sampleHops sampler replace prob_name compact rest
            (compact (sampler seeds f replace prob_name).node_pairs seeds).1).2
           ++ [{ node_pairs := (compact (sampler seeds f replace prob_name).node_pairs seeds).2
                 original_column_node_ids := some seeds
                 original_row_node_ids :=
                   some (compact (sampler seeds f replace prob_name).node_pairs seeds).1
                 original_edge_ids := none }]) := rfl

theorem sampleHopsChronological_nil (sampler : SamplerPrim) (replace : Bool)
    (prob_name : Option String) (compact : CompactFn) (seeds : NodeData) :
    sampleHopsChronological sampler replace prob_name compact [] seeds = (seeds, []) := rfl

theorem sampleHopsChronological_cons (sampler : SamplerPrim) (replace : Bool)
    (prob_name : Option String) (compact : CompactFn) (f : Fanout)
    (rest : List Fanout) (seeds : NodeData) :
    sampleHopsChronological sampler replace prob_name compact (f :: rest) seeds
      = ((sampleHopsChronological sampler replace prob_name compact rest
            (compact (sampler seeds f replace prob_name).node_pairs seeds).1).1,
         { node_pairs := (compact (sampler seeds f replace prob_name).node_pairs seeds).2
           original_column_node_ids := some seeds
           original_row_node_ids :=
             some (compact (sampler seeds f replace prob_name).node_pairs seeds).1
           original_edge_ids := none }
           :: (sampleHopsChronological sampler replace prob_name compact rest
                (compact (sampler seeds f replace prob_name).node_pairs seeds).1).2) := rfl

/-! ## Structural lemmas about the hop loop -/

theorem sampleHops_length (sampler : SamplerPrim) (replace : Bool)
    (prob_name : Option String) (compact : CompactFn) :
    ∀ (fs : List Fanout) (seeds : NodeData),
    ((sampleHops sampler replace prob_name compact fs seeds).2).length = fs.length := by
  intro fs
  induction fs with
  | nil => intro seeds; rfl
  | cons f rest ih =>
    intro seeds
    rw [sampleHops_cons]
    simp [ih]

theorem sampleHops_getLast_col (sampler : SamplerPrim) (replace : Bool)
    (prob_name : Option String) (compact : CompactFn) :
    ∀ (fs : List Fanout) (seeds : NodeData) (sg : SampledSubgraphImpl),
    ((sampleHops sampler replace prob_name compact fs seeds).2).getLast? = some sg →
    sg.original_column_node_ids = some seeds := by
  intro fs seeds sg h
  cases fs with
  | nil => rw [sampleHops_nil] at h; simp at h
  | cons f rest =>
    rw [sampleHops_cons] at h
    rw [List.getLast?_concat] at h
    cases h
    rfl

theorem sampleHops_head_row (sampler : SamplerPrim) (replace : Bool)
    (prob_name : Option String) (compact : CompactFn) :
    ∀ (fs : List Fanout) (seeds : NodeData) (sg : SampledSubgraphImpl),
    ((sampleHops sampler replace prob_name compact fs seeds).2).head? = some sg →
    sg.original_row_node_ids
      = some (sampleHops sampler replace prob_name compact fs seeds).1 := by
  intro fs
  induction fs with
  | nil => intro seeds sg h; rw [sampleHops_nil] at h; simp at h
  | cons f rest ih =>
    intro seeds sg h
    rw [sampleHops_cons] at h ⊢
    cases rest with
    | nil =>
      rw [sampleHops_nil] at h ⊢
      simp at h
      rw [← h]
    | cons g rest' =>
      have hlen := sampleHops_length sampler replace prob_name compact (g :: rest')
        (compact (sampler seeds f replace prob_name).node_pairs seeds).1
      cases hr2 : (sampleHops sampler replace prob_name compact (g :: rest')
          (compact (sampler seeds f replace prob_name).node_pairs seeds).1).2 with
      | nil => rw [hr2] at hlen; simp at hlen
      | cons b t =>
        rw [hr2] at h
        simp at h
        have := ih (compact (sampler seeds f replace prob_name).node_pairs seeds).1 b
          (by rw [hr2]; rfl)
        rw [← h]
        exact this

theorem sampleHops_chain (sampler : SamplerPrim) (replace : Bool)
    (prob_name : Option String) (compact : CompactFn) :
    ∀ (fs : List Fanout) (seeds : NodeData) (i : Nat) (sg sg' : SampledSubgraphImpl),
    (((sampleHops sampler replace prob_name compact fs seeds).2)[i]? = some sg) →
    (((sampleHops sampler replace prob_name compact fs seeds).2)[i + 1]? = some sg') →
    sg.original_column_node_ids = sg'.original_row_node_ids := by
  intro fs
  induction fs with
  | nil =>
    intro seeds i sg sg' h1 _
    rw [sampleHops_nil] at h1
    simp at h1
  | cons f rest ih =>
    intro seeds i sg sg' h1 h2
    rw [sampleHops_cons] at h1 h2
    have hlen := sampleHops_length sampler replace prob_name compact rest
      (compact (sampler seeds f replace prob_name).node_pairs seeds).1
    rcases Nat.lt_trichotomy (i + 1)
        ((sampleHops sampler replace prob_name compact rest
          (compact (sampler seeds f replace prob_name).node_pairs seeds).1).2).length
      with hlt | heq | hgt
    · rw [List.getElem?_append, if_pos (Nat.lt_of_succ_lt hlt)] at h1
      rw [List.getElem?_append, if_pos hlt] at h2
      exact ih _ i sg sg' h1 h2
    · have hi : i < ((sampleHops sampler replace prob_name compact rest
          (compact (sampler seeds f replace prob_name).node_pairs seeds).1).2).length := by
        omega
      rw [List.getElem?_append, if_pos hi] at h1
      rw [List.getElem?_append_right (by omega)] at h2
      rw [heq] at h2
      simp at h2
      have hcol : sg.original_column_node_ids
          = some (compact (sampler seeds f replace prob_name).node_pairs seeds).1 := by
        apply sampleHops_getLast_col sampler replace prob_name compact rest
          (compact (sampler seeds f replace prob_name).node_pairs seeds).1 sg
        rw [List.getLast?_eq_getElem?]
        have : ((sampleHops sampler replace prob_name compact rest
            (compact (sampler seeds f replace prob_name).node_pairs seeds).1).2).length - 1
              = i := by omega
        rw [this]
        exact h1
      rw [hcol, ← h2]
    · exfalso
      have hb := (List.getElem?_eq_some.mp h2).1
      simp at hb
      omega

theorem sampleHops_eq_chronological (sampler : SamplerPrim) (replace : Bool)
    (prob_name : Option String) (compact : CompactFn) :
    ∀ (fs : List Fanout) (seeds : NodeData),
    sampleHops sampler replace prob_name compact fs seeds
      = ((sampleHopsChronological sampler replace prob_name compact fs seeds).1,
         ((sampleHopsChronological sampler replace prob_name compact fs seeds).2).reverse) := by
  intro fs
  induction fs with
  | nil => intro seeds; rfl
  | cons f rest ih =>
    intro seeds
    rw [sampleHops_cons, sampleHopsChronological_cons, ih]
    simp

theorem lookup_map_apply (f : String → Tensor) :
    ∀ (l : List String) (k : String), k ∈ l →
    (l.map (fun nt => (nt, f nt))).lookup k = some (f k) := by
  intro l
  induction l with
  | nil => intro k hk; simp at hk
  | cons a l ih =>
    intro k hk
    by_cases hka : k = a
    · subst hka
      simp [List.lookup]
    · have hk' : k ∈ l := by
        rcases List.mem_cons.mp hk with h | h
        · exact absurd h hka
        · exact h
      have hfalse : (k == a) = false := by simp [hka]
      simp only [List.map_cons, List.lookup, hfalse]
      exact ih k hk'

/-! ## Claim theorems: the sampling loop -/

/-- C1: chaining invariant — in any run of `_sample_subgraphs`, for every
pair of adjacent entries of the returned layer list, entry `i`'s
`original_column_node_ids` equals entry `i+1`'s `original_row_node_ids`. -/
theorem sample_subgraphs_chaining (st : NeighborSamplerState) (compact : CompactFn)
    (seeds : NodeData) (i : Nat) (sg sg' : SampledSubgraphImpl)
    (h1 : ((st.sample_subgraphs compact seeds).2)[i]? = some sg)
    (h2 : ((st.sample_subgraphs compact seeds).2)[i + 1]? = some sg') :
    sg.original_column_node_ids = sg'.original_row_node_ids := by
  unfold NeighborSamplerState.sample_subgraphs at h1 h2
  exact sampleHops_chain st.sampler st.replace st.prob_name compact st.fanouts
    (enrichSeeds st.graph seeds) i sg sg' h1 h2

theorem sample_subgraphs_chaining_witness :
    runEx.2[0]? = some sgOuterEx ∧ runEx.2[1]? = some sgInnerEx
      ∧ sgOuterEx.original_column_node_ids = sgInnerEx.original_row_node_ids :=
  ⟨by decide, by decide,
    sample_subgraphs_chaining stEx unique_and_compact_node_pairs (NodeData.hom [0]) 0
      sgOuterEx sgInnerEx (by decide) (by decide)⟩

/-- C2: for every fanout sequence handed to the constructor and every seed
set, `_sample_subgraphs` returns exactly one layer per fanout entry. -/
theorem neighbor_sampler_layer_count (graph : CSCSamplingGraph)
    (fanouts : List FanoutSpec) (replace : Bool) (prob_name : Option String)
    (compact : CompactFn) (seeds : NodeData) :
    (((NeighborSampler.init graph fanouts replace prob_name).sample_subgraphs
        compact seeds).2).length = fanouts.length := by
  unfold NeighborSamplerState.sample_subgraphs NeighborSampler.init
  rw [sampleHops_length]
  simp

/-- C3: layer ordering — the returned layer list is the reverse of the
chronologically built list (hop 0 sampled first), so index 0 holds the
last-sampled (outermost) hop and index `L-1` the first-sampled hop; the
first-sampled hop's column set is the (enriched) seed set, which for a
homogeneous seed tensor is the original seed set itself. -/
theorem sample_subgraphs_layer_ordering (st : NeighborSamplerState)
    (compact : CompactFn) (seeds : NodeData) :
    ((st.sample_subgraphs compact seeds).2
        = ((sampleHopsChronological st.sampler st.replace st.prob_name compact
            st.fanouts (enrichSeeds st.graph seeds)).2).reverse)
      ∧ (∀ sg, ((st.sample_subgraphs compact seeds).2).getLast? = some sg →
          sg.original_column_node_ids = some (enrichSeeds st.graph seeds))
      ∧ (∀ t, seeds = NodeData.hom t → enrichSeeds st.graph seeds = seeds) := by
  refine ⟨?_, ?_, ?_⟩
  · unfold NeighborSamplerState.sample_subgraphs
    rw [sampleHops_eq_chronological]
  · intro sg h
    unfold NeighborSamplerState.sample_subgraphs at h
    exact sampleHops_getLast_col st.sampler st.replace st.prob_name compact st.fanouts
      (enrichSeeds st.graph seeds) sg h
  · intro t ht
    subst ht
    rfl

theorem sample_subgraphs_layer_ordering_witness :
    runEx.2 = ((sampleHopsChronological stEx.sampler stEx.replace stEx.prob_name
        unique_and_compact_node_pairs stEx.fanouts
        (enrichSeeds stEx.graph (NodeData.hom [0]))).2).reverse
      ∧ sgInnerEx.original_column_node_ids
          = some (enrichSeeds stEx.graph (NodeData.hom [0])) :=
  ⟨(sample_subgraphs_layer_ordering stEx unique_and_compact_node_pairs
      (NodeData.hom [0])).1,
   (sample_subgraphs_layer_ordering stEx unique_and_compact_node_pairs
      (NodeData.hom [0])).2.1 sgInnerEx (by decide)⟩

/-- C4 counterexample: in the minibatch assembled from a concrete run (layer
list from `_sample_subgraphs`, `input_nodes` the final compacted node set),
the layer whose `original_row_node_ids` is `input_nodes` is not the last
entry of `sampled_subgraphs` — it is the first. -/
theorem minibatch_outermost_last_counterexample :
    (¬ (mbEx.sampled_subgraphs.getD []).getLast?.bind
        (fun sg => sg.original_row_node_ids) = mbEx.input_nodes)
      ∧ (mbEx.sampled_subgraphs.getD []).head?.bind
          (fun sg => sg.original_row_node_ids) = mbEx.input_nodes := by
  refine ⟨?_, ?_⟩
  · decide
  · decide

/-- C4 amended: the outermost layer — the one whose `original_row_node_ids`
is the final compacted node set that becomes the minibatch's `input_nodes` —
appears first (index 0) in the returned layer list, not last. -/
theorem sample_subgraphs_outermost_layer_first (st : NeighborSamplerState)
    (compact : CompactFn) (seeds : NodeData) (sg : SampledSubgraphImpl)
    (h : ((st.sample_subgraphs compact seeds).2).head? = some sg) :
    sg.original_row_node_ids = some (st.sample_subgraphs compact seeds).1 := by
  unfold NeighborSamplerState.sample_subgraphs at h ⊢
  exact sampleHops_head_row st.sampler st.replace st.prob_name compact st.fanouts
    (enrichSeeds st.graph seeds) sg h

theorem sample_subgraphs_outermost_layer_first_witness :
    sgOuterEx.original_row_node_ids = some runEx.1 :=
  sample_subgraphs_outermost_layer_first stEx unique_and_compact_node_pairs
    (NodeData.hom [0]) sgOuterEx (by decide)

/-- C8: heterogeneous seed enrichment — a dict seed set is replaced, before
the first hop, by a dict whose key list is exactly the graph's declared node
types, binding each declared type to its present sequence (unchanged) or to
the empty tensor, and the hop loop then runs on that enriched seed set. -/
theorem sample_subgraphs_het_enrichment (st : NeighborSamplerState)
    (compact : CompactFn) (m : List (String × Tensor)) :
    (enrichSeeds st.graph (NodeData.het m)
        = NodeData.het ((st.graph.metadata.node_type_to_id.map Prod.fst).map
            (fun ntype => (ntype, (m.lookup ntype).getD []))))
      ∧ (((st.graph.metadata.node_type_to_id.map Prod.fst).map
            (fun ntype => (ntype, (m.lookup ntype).getD []))).map Prod.fst
          = st.graph.metadata.node_type_to_id.map Prod.fst)
      ∧ (∀ (ntype : String) (t : Tensor),
          ntype ∈ st.graph.metadata.node_type_to_id.map Prod.fst →
          m.lookup ntype = some t →
          ((st.graph.metadata.node_type_to_id.map Prod.fst).map
              (fun nt => (nt, (m.lookup nt).getD []))).lookup ntype = some t)
      ∧ (∀ ntype : String,
          ntype ∈ st.graph.metadata.node_type_to_id.map Prod.fst →
          m.lookup ntype = none →
          ((st.graph.metadata.node_type_to_id.map Prod.fst).map
              (fun nt => (nt, (m.lookup nt).getD []))).lookup ntype = some [])
      ∧ st.sample_subgraphs compact (NodeData.het m)
          = sampleHops st.sampler st.replace st.prob_name compact st.fanouts
              (enrichSeeds st.graph (NodeData.het m)) := by
  refine ⟨rfl, by simp, ?_, ?_, rfl⟩
  · intro ntype t hmem hlook
    have := lookup_map_apply (fun nt => (m.lookup nt).getD [])
      (st.graph.metadata.node_type_to_id.map Prod.fst) ntype hmem
    rw [this]
    simp [hlook]
  · intro ntype hmem hlook
    have := lookup_map_apply (fun nt => (m.lookup nt).getD [])
      (st.graph.metadata.node_type_to_id.map Prod.fst) ntype hmem
    rw [this]
    simp [hlook]

theorem sample_subgraphs_het_enrichment_witness :
    enrichSeeds stHet.graph (NodeData.het [("item", [7])])
        = NodeData.het ((stHet.graph.metadata.node_type_to_id.map Prod.fst).map
            (fun ntype =>
              (ntype, (([("item", [7])] : List (String × Tensor)).lookup ntype).getD [])))
      ∧ ((stHet.graph.metadata.node_type_to_id.map Prod.fst).map
            (fun nt =>
              (nt, (([("item", [7])] : List (String × Tensor)).lookup nt).getD []))).lookup
          "item" = some [7]
      ∧ ((stHet.graph.metadata.node_type_to_id.map Prod.fst).map
            (fun nt =>
              (nt, (([("item", [7])] : List (String × Tensor)).lookup nt).getD []))).lookup
          "user" = some [] :=
  ⟨(sample_subgraphs_het_enrichment stHet unique_and_compact_node_pairs
      [("item", [7])]).1,
   (sample_subgraphs_het_enrichment stHet unique_and_compact_node_pairs
      [("item", [7])]).2.2.1 "item" [7] (by decide) (by decide),
   (sample_subgraphs_het_enrichment stHet unique_and_compact_node_pairs
      [("item", [7])]).2.2.2.1 "user" (by decide) (by decide)⟩

/-- C9: `LayerNeighborSampler` is exactly `NeighborSampler` with the single
difference that the bound per-hop primitive is
`graph.sample_layer_neighbors`; both run the identical hop loop, and the
loop consults the primitive only at the stored `replace` and `prob_name`
values (the `prob_name` is passed through unchanged at every hop). -/
theorem layer_neighbor_sampler_refinement (graph : CSCSamplingGraph)
    (fanouts : List FanoutSpec) (replace : Bool) (prob_name : Option String) :
    (LayerNeighborSampler.init graph fanouts replace prob_name
        = { NeighborSampler.init graph fanouts replace prob_name with
            sampler := graph.sample_layer_neighbors })
      ∧ (∀ (compact : CompactFn) (seeds : NodeData),
          (LayerNeighborSampler.init graph fanouts replace prob_name).sample_subgraphs
              compact seeds
            = sampleHops graph.sample_layer_neighbors replace prob_name compact
                (fanouts.map FanoutSpec.toTensor) (enrichSeeds graph seeds)
          ∧ (NeighborSampler.init graph fanouts replace prob_name).sample_subgraphs
              compact seeds
            = sampleHops graph.sample_neighbors replace prob_name compact
                (fanouts.map FanoutSpec.toTensor) (enrichSeeds graph seeds))
      ∧ (∀ (prim prim' : SamplerPrim) (compact : CompactFn) (fs : List Fanout)
            (seeds : NodeData),
          (∀ s f, prim s f replace prob_name = prim' s f replace prob_name) →
          sampleHops prim replace prob_name compact fs seeds
            = sampleHops prim' replace prob_name compact fs seeds) := by
  refine ⟨rfl, fun compact seeds => ⟨rfl, rfl⟩, ?_⟩
  intro prim prim' compact fs
  induction fs with
  | nil => intro seeds _; rfl
  | cons f rest ih =>
    intro seeds hagree
    rw [sampleHops_cons, sampleHops_cons, hagree seeds f, ih _ hagree]

theorem layer_neighbor_sampler_refinement_witness :
    LayerNeighborSampler.init gEx [FanoutSpec.int 2] false none
      = { NeighborSampler.init gEx [FanoutSpec.int 2] false none with
          sampler := gEx.sample_layer_neighbors } :=
  (layer_neighbor_sampler_refinement gEx [FanoutSpec.int 2] false none).1

/-! ## Lemmas about the block transform -/

@[simp]
theorem applyEidHom_edges_hom (o : Option EdgeData) (b : DGLBlock) :
    (applyEidHom o b).edges_hom = b.edges_hom := by cases o <;> rfl

@[simp]
theorem applyEidHom_edges_het (o : Option EdgeData) (b : DGLBlock) :
    (applyEidHom o b).edges_het = b.edges_het := by cases o <;> rfl

@[simp]
theorem applyEidHom_num_src_hom (o : Option EdgeData) (b : DGLBlock) :
    (applyEidHom o b).num_src_hom = b.num_src_hom := by cases o <;> rfl

@[simp]
theorem applyEidHom_num_src_het (o : Option EdgeData) (b : DGLBlock) :
    (applyEidHom o b).num_src_het = b.num_src_het := by cases o <;> rfl

@[simp]
theorem applyEidHom_num_dst_hom (o : Option EdgeData) (b : DGLBlock) :
    (applyEidHom o b).num_dst_hom = b.num_dst_hom := by cases o <;> rfl

@[simp]
theorem applyEidHom_num_dst_het (o : Option EdgeData) (b : DGLBlock) :
    (applyEidHom o b).num_dst_het = b.num_dst_het := by cases o <;> rfl

@[simp]
theorem applyEidHom_srcdata (o : Option EdgeData) (b : DGLBlock) :
    (applyEidHom o b).srcdata = b.srcdata := by cases o <;> rfl

@[simp]
theorem applyEidHom_srcnodes_data (o : Option EdgeData) (b : DGLBlock) :
    (applyEidHom o b).srcnodes_data = b.srcnodes_data := by cases o <;> rfl

@[simp]
theorem applyEidHom_edata (o : Option EdgeData) (b : DGLBlock) :
    (applyEidHom o b).edata = b.edata := by cases o <;> rfl

@[simp]
theorem applyEidHom_edata_het (o : Option EdgeData) (b : DGLBlock) :
    (applyEidHom o b).edata_het = b.edata_het := by cases o <;> rfl

theorem length_eq_of_getElem_map {α β : Type} (l1 : List α) (l2 : List β)
    (f : Nat → α → β) (h : ∀ i, l2[i]? = (l1[i]?).map (f i)) :
    l2.length = l1.length := by
  rcases Nat.lt_trichotomy l2.length l1.length with hlt | heq | hgt
  · exfalso
    have h2 := h l2.length
    rw [List.getElem?_length, List.getElem?_eq_getElem hlt] at h2
    simp at h2
  · exact heq
  · exfalso
    have h2 := h l1.length
    rw [List.getElem?_length, List.getElem?_eq_getElem hgt] at h2
    simp at h2

theorem updateBlock0_getElem (f : DGLBlock → DGLBlock) (bs : List DGLBlock) (i : Nat) :
    (updateBlock0 f bs)[i]? = if i = 0 then (bs[i]?).map f else bs[i]? := by
  cases bs with
  | nil => cases i <;> simp [updateBlock0]
  | cons b t => cases i <;> simp [updateBlock0]

theorem assignNodeFeatsHom_getElem :
    ∀ (m : List (String × Feature)) (bs : List DGLBlock) (i : Nat),
    (assignNodeFeatsHom m bs)[i]?
      = if i = 0 then (bs[i]?).map (fun b => { b with srcdata := b.srcdata ++ m })
        else bs[i]? := by
  intro m
  induction m with
  | nil =>
    intro bs i
    by_cases h0 : i = 0
    · subst h0
      cases h : bs[0]? <;> simp [assignNodeFeatsHom, h]
    · simp [assignNodeFeatsHom, h0]
  | cons kv m ih =>
    intro bs i
    have hstep : assignNodeFeatsHom (kv :: m) bs
        = assignNodeFeatsHom m
            (updateBlock0 (fun b => { b with srcdata := b.srcdata ++ [kv] }) bs) := rfl
    rw [hstep, ih, updateBlock0_getElem]
    by_cases h0 : i = 0
    · subst h0
      cases h : bs[0]? <;> simp [h]
    · simp [h0]

theorem assignNodeFeatsHet_getElem :
    ∀ (m : List ((String × String) × Feature)) (bs : List DGLBlock) (i : Nat),
    (assignNodeFeatsHet m bs)[i]?
      = if i = 0 then
          (bs[i]?).map (fun b => { b with srcnodes_data := b.srcnodes_data ++ m })
        else bs[i]? := by
  intro m
  induction m with
  | nil =>
    intro bs i
    by_cases h0 : i = 0
    · subst h0
      cases h : bs[0]? <;> simp [assignNodeFeatsHet, h]
    · simp [assignNodeFeatsHet, h0]
  | cons kv m ih =>
    intro bs i
    have hstep : assignNodeFeatsHet (kv :: m) bs
        = assignNodeFeatsHet m
            (updateBlock0 (fun b => { b with srcnodes_data := b.srcnodes_data ++ [kv] }) bs) :=
      rfl
    rw [hstep, ih, updateBlock0_getElem]
    by_cases h0 : i = 0
    · subst h0
      cases h : bs[0]? <;> simp [h]
    · simp [h0]

theorem homNodeFeatsPhase_ok_getElem (nf : Option NodeFeats) (bs bs2 : List DGLBlock)
    (h : homNodeFeatsPhase nf bs = Except.ok bs2) (i : Nat) :
    bs2[i]?
      = if i = 0 then
          (bs[i]?).map (fun b => { b with srcdata := b.srcdata ++ nodeFeatsHomOf nf })
        else bs[i]? := by
  match nf with
  | none =>
    cases h
    by_cases h0 : i = 0
    · subst h0
      cases hb : bs[0]? <;> simp [nodeFeatsHomOf, hb]
    · simp [h0]
  | some (NodeFeats.hom m) =>
    cases h
    exact assignNodeFeatsHom_getElem m bs i
  | some (NodeFeats.het m) =>
    cases m with
    | nil =>
      simp [homNodeFeatsPhase] at h
      cases h
      by_cases h0 : i = 0
      · subst h0
        cases hb : bs[0]? <;> simp [nodeFeatsHomOf, hb]
      · simp [h0]
    | cons kv kvs => simp [homNodeFeatsPhase] at h

theorem hetNodeFeatsPhase_ok_getElem (nf : Option NodeFeats) (bs bs2 : List DGLBlock)
    (h : hetNodeFeatsPhase nf bs = Except.ok bs2) (i : Nat) :
    bs2[i]?
      = if i = 0 then
          (bs[i]?).map
            (fun b => { b with srcnodes_data := b.srcnodes_data ++ nodeFeatsHetOf nf })
        else bs[i]? := by
  match nf with
  | none =>
    cases h
    by_cases h0 : i = 0
    · subst h0
      cases hb : bs[0]? <;> simp [nodeFeatsHetOf, hb]
    · simp [h0]
  | some (NodeFeats.het m) =>
    cases h
    exact assignNodeFeatsHet_getElem m bs i
  | some (NodeFeats.hom m) =>
    cases m with
    | nil =>
      simp [hetNodeFeatsPhase] at h
      cases h
      by_cases h0 : i = 0
      · subst h0
        cases hb : bs[0]? <;> simp [nodeFeatsHetOf, hb]
      · simp [h0]
    | cons kv kvs => simp [hetNodeFeatsPhase] at h

theorem assignEdgeFeatsHom_ok_getElem :
    ∀ (bs : List DGLBlock) (efs : List EdgeFeats) (bs2 : List DGLBlock),
    assignEdgeFeatsHom bs efs = Except.ok bs2 →
    ∀ (i : Nat), bs2[i]?
      = (bs[i]?).map (fun b => { b with edata := b.edata ++ edataHomOf efs[i]? }) := by
  intro bs
  induction bs with
  | nil =>
    intro efs bs2 h i
    cases efs with
    | nil => cases h; simp
    | cons e es => cases h; simp
  | cons b t ih =>
    intro efs bs2 h i
    cases efs with
    | nil =>
      cases h
      cases i with
      | zero => simp [edataHomOf]
      | succ j =>
        cases hb : t[j]? <;> simp [edataHomOf, hb]
    | cons ef es =>
      cases ef with
      | hom m =>
        simp only [assignEdgeFeatsHom] at h
        cases hrec : assignEdgeFeatsHom t es with
        | error e => rw [hrec] at h; simp at h
        | ok bs3 =>
          rw [hrec] at h
          cases h
          cases i with
          | zero => simp [edataHomOf]
          | succ j => simpa [edataHomOf] using ih es bs3 hrec j
      | het m =>
        cases m with
        | nil =>
          simp only [assignEdgeFeatsHom, List.isEmpty_nil, if_true] at h
          cases hrec : assignEdgeFeatsHom t es with
          | error e => rw [hrec] at h; simp at h
          | ok bs3 =>
            rw [hrec] at h
            cases h
            cases i with
            | zero => cases hb : b.edata <;> simp [edataHomOf]
            | succ j => simpa [edataHomOf] using ih es bs3 hrec j
        | cons kv kvs =>
          simp [assignEdgeFeatsHom] at h

theorem assignEdgeFeatsHet_ok_getElem :
    ∀ (bs : List DGLBlock) (efs : List EdgeFeats) (bs2 : List DGLBlock),
    assignEdgeFeatsHet bs efs = Except.ok bs2 →
    ∀ (i : Nat), bs2[i]?
      = (bs[i]?).map (fun b => { b with edata_het := b.edata_het ++ edataHetOf efs[i]? }) := by
  intro bs
  induction bs with
  | nil =>
    intro efs bs2 h i
    cases efs with
    | nil => cases h; simp
    | cons e es => cases h; simp
  | cons b t ih =>
    intro efs bs2 h i
    cases efs with
    | nil =>
      cases h
      cases i with
      | zero => simp [edataHetOf]
      | succ j =>
        cases hb : t[j]? <;> simp [edataHetOf, hb]
    | cons ef es =>
      cases ef with
      | het m =>
        simp only [assignEdgeFeatsHet] at h
        cases hrec : assignEdgeFeatsHet t es with
        | error e => rw [hrec] at h; simp at h
        | ok bs3 =>
          rw [hrec] at h
          cases h
          cases i with
          | zero => simp [edataHetOf]
          | succ j => simpa [edataHetOf] using ih es bs3 hrec j
      | hom m =>
        cases m with
        | nil =>
          simp only [assignEdgeFeatsHet, List.isEmpty_nil, if_true] at h
          cases hrec : assignEdgeFeatsHet t es with
          | error e => rw [hrec] at h; simp at h
          | ok bs3 =>
            rw [hrec] at h
            cases h
            cases i with
            | zero => simp [edataHetOf]
            | succ j => simpa [edataHetOf] using ih es bs3 hrec j
        | cons kv kvs =>
          simp [assignEdgeFeatsHet] at h

theorem homEdgeFeatsPhase_ok_getElem (efs : Option (List EdgeFeats))
    (bs bs2 : List DGLBlock) (h : homEdgeFeatsPhase efs bs = Except.ok bs2) (i : Nat) :
    bs2[i]?
      = (bs[i]?).map
          (fun b => { b with edata := b.edata ++ edataHomOf ((efs.getD [])[i]?) }) := by
  cases efs with
  | none =>
    cases h
    cases hb : bs[i]? <;> simp [edataHomOf, hb]
  | some efl => exact assignEdgeFeatsHom_ok_getElem bs efl bs2 h i

theorem hetEdgeFeatsPhase_ok_getElem (efs : Option (List EdgeFeats))
    (bs bs2 : List DGLBlock) (h : hetEdgeFeatsPhase efs bs = Except.ok bs2) (i : Nat) :
    bs2[i]?
      = (bs[i]?).map
          (fun b => { b with edata_het := b.edata_het ++ edataHetOf ((efs.getD [])[i]?) }) := by
  cases efs with
  | none =>
    cases h
    cases hb : bs[i]? <;> simp [edataHetOf, hb]
  | some efl => exact assignEdgeFeatsHet_ok_getElem bs efl bs2 h i

theorem assignEidHom_getElem :
    ∀ (bs : List DGLBlock) (sgs : List SampledSubgraphImpl) (i : Nat),
    (assignEidHom bs sgs)[i]?
      = (bs[i]?).map
          (applyEidHom ((sgs[i]?).bind SampledSubgraphImpl.original_edge_ids)) := by
  intro bs
  induction bs with
  | nil => intro sgs i; cases sgs <;> simp [assignEidHom]
  | cons b t ih =>
    intro sgs i
    cases sgs with
    | nil =>
      cases i with
      | zero => simp [assignEidHom, applyEidHom]
      | succ j => cases hb : t[j]? <;> simp [assignEidHom, applyEidHom, hb]
    | cons sg sgs' =>
      cases i with
      | zero =>
        cases he : sg.original_edge_ids <;> simp [assignEidHom, applyEidHom, he]
      | succ j => simpa [assignEidHom] using ih sgs' j

theorem assignEidHet_ok_getElem :
    ∀ (bs : List DGLBlock) (sgs : List SampledSubgraphImpl) (bs2 : List DGLBlock),
    assignEidHet bs sgs = Except.ok bs2 →
    ∀ (i : Nat), bs2[i]?
      = (bs[i]?).map (fun b =>
          { b with edata_eid_het := b.edata_eid_het
              ++ eidHetOf ((sgs[i]?).bind SampledSubgraphImpl.original_edge_ids) }) := by
  intro bs
  induction bs with
  | nil =>
    intro sgs bs2 h i
    cases sgs with
    | nil => cases h; simp
    | cons sg sgs' => cases h; simp
  | cons b t ih =>
    intro sgs bs2 h i
    cases sgs with
    | nil =>
      cases h
      cases i with
      | zero => simp [eidHetOf]
      | succ j =>
        cases hb : t[j]? <;> simp [eidHetOf, hb]
    | cons sg sgs' =>
      cases hsg : sg.original_edge_ids with
      | none =>
        simp only [assignEidHet, hsg] at h
        cases hrec : assignEidHet t sgs' with
        | error e => rw [hrec] at h; simp at h
        | ok bs3 =>
          rw [hrec] at h
          cases h
          cases i with
          | zero => simp [eidHetOf, hsg]
          | succ j => simpa using ih sgs' bs3 hrec j
      | some ed =>
        cases ed with
        | het m =>
          cases m with
          | nil =>
            simp only [assignEidHet, hsg, List.isEmpty_nil, if_true] at h
            cases hrec : assignEidHet t sgs' with
            | error e => rw [hrec] at h; simp at h
            | ok bs3 =>
              rw [hrec] at h
              cases h
              cases i with
              | zero => simp [eidHetOf, hsg]
              | succ j => simpa using ih sgs' bs3 hrec j
          | cons kv kvs =>
            simp only [assignEidHet, hsg, List.isEmpty_cons, if_false, Bool.false_eq_true,
              if_neg] at h
            cases hrec : assignEidHet t sgs' with
            | error e => rw [hrec] at h; simp at h
            | ok bs3 =>
              rw [hrec] at h
              cases h
              cases i with
              | zero => simp [eidHetOf, hsg]
              | succ j => simpa using ih sgs' bs3 hrec j
        | hom ed =>
          simp [assignEidHet, hsg] at h

theorem assignNidHet_ok (sg0 : SampledSubgraphImpl) (bs bs2 : List DGLBlock)
    (h : assignNidHet sg0 bs = Except.ok bs2) :
    (∃ rows, sg0.original_row_node_ids = some (NodeData.het rows))
      ∧ bs2 = updateBlock0
          (fun b =>
            { b with srcnodes_nid := b.srcnodes_nid ++ rowsHetOf sg0.original_row_node_ids })
          bs := by
  unfold assignNidHet at h
  cases hrow : sg0.original_row_node_ids with
  | none => rw [hrow] at h; simp at h
  | some nd =>
    cases nd with
    | hom t => rw [hrow] at h; simp at h
    | het rows =>
      rw [hrow] at h
      cases h
      exact ⟨⟨rows, rfl⟩, rfl⟩

theorem buildBlocks_ok_length (is_het : Bool) :
    ∀ (sgs : List SampledSubgraphImpl) (bs : List DGLBlock),
    buildBlocks is_het sgs = Except.ok bs → bs.length = sgs.length := by
  intro sgs
  induction sgs with
  | nil => intro bs h; cases h; rfl
  | cons sg rest ihr =>
    intro bs h
    simp only [buildBlocks] at h
    cases hb : buildBlock is_het sg with
    | error e => rw [hb] at h; simp at h
    | ok b =>
      rw [hb] at h
      cases hr : buildBlocks is_het rest with
      | error e => rw [hr] at h; simp at h
      | ok bs' =>
        rw [hr] at h
        cases h
        simp [ihr bs' hr]

theorem buildBlocks_ok_getElem (is_het : Bool) :
    ∀ (sgs : List SampledSubgraphImpl) (bs : List DGLBlock),
    buildBlocks is_het sgs = Except.ok bs →
    ∀ (i : Nat) (sg : SampledSubgraphImpl), sgs[i]? = some sg →
    ∃ b, bs[i]? = some b ∧ buildBlock is_het sg = Except.ok b := by
  intro sgs
  induction sgs with
  | nil => intro bs h i sg hsg; simp at hsg
  | cons sg0 rest ihr =>
    intro bs h i sg hsg
    simp only [buildBlocks] at h
    cases hb : buildBlock is_het sg0 with
    | error e => rw [hb] at h; simp at h
    | ok b0 =>
      rw [hb] at h
      cases hr : buildBlocks is_het rest with
      | error e => rw [hr] at h; simp at h
      | ok bs' =>
        rw [hr] at h
        cases h
        cases i with
        | zero =>
          simp at hsg
          subst hsg
          exact ⟨b0, by simp, hb⟩
        | succ j =>
          simp at hsg
          obtain ⟨b, hb', hbb⟩ := ihr bs' hr j sg hsg
          exact ⟨b, by simpa using hb', hbb⟩

theorem buildBlock_ok_frames (is_het : Bool) (sg : SampledSubgraphImpl) (b : DGLBlock)
    (h : buildBlock is_het sg = Except.ok b) :
    b.srcdata = [] ∧ b.srcnodes_data = [] ∧ b.edata = [] ∧ b.edata_het = []
      ∧ b.srcdata_nid = none ∧ b.srcnodes_nid = [] ∧ b.edata_eid = none
      ∧ b.edata_eid_het = [] := by
  unfold buildBlock at h
  split at h
  · simp at h
  · split at h
    · simp at h
    · split at h
      · split at h
        · simp only [Except.ok.injEq] at h
          subst h
          exact ⟨rfl, rfl, rfl, rfl, rfl, rfl, rfl, rfl⟩
        · simp at h
      · split at h
        · simp only [Except.ok.injEq] at h
          subst h
          exact ⟨rfl, rfl, rfl, rfl, rfl, rfl, rfl, rfl⟩
        · simp at h

theorem buildBlock_ok_hom (is_het : Bool) (sg : SampledSubgraphImpl) (b : DGLBlock)
    (h : buildBlock is_het sg = Except.ok b)
    (np : Tensor × Tensor) (rows cols : Tensor)
    (hnp : sg.node_pairs = NodePairs.hom np)
    (hr : sg.original_row_node_ids = some (NodeData.hom rows))
    (hc : sg.original_column_node_ids = some (NodeData.hom cols)) :
    b = create_block_hom np rows.length cols.length := by
  unfold buildBlock at h
  rw [hr, hc] at h
  cases is_het with
  | true =>
    rw [hnp] at h
    simp at h
  | false =>
    rw [hnp] at h
    simp only [Bool.false_eq_true, if_false, Except.ok.injEq] at h
    exact h.symm

theorem buildBlock_ok_het (is_het : Bool) (sg : SampledSubgraphImpl) (b : DGLBlock)
    (h : buildBlock is_het sg = Except.ok b)
    (np : List (String × (Tensor × Tensor))) (rows cols : List (String × Tensor))
    (hnp : sg.node_pairs = NodePairs.het np)
    (hr : sg.original_row_node_ids = some (NodeData.het rows))
    (hc : sg.original_column_node_ids = some (NodeData.het cols)) :
    b = create_block_het (np.map (fun kv => (etype_str_to_tuple kv.1, kv.2)))
          (rows.map (fun kv => (kv.1, kv.2.length)))
          (cols.map (fun kv => (kv.1, kv.2.length))) := by
  unfold buildBlock at h
  rw [hr, hc] at h
  cases is_het with
  | false =>
    rw [hnp] at h
    simp at h
  | true =>
    rw [hnp] at h
    simp only [if_true, Except.ok.injEq] at h
    exact h.symm

theorem buildBlock_missing (is_het : Bool) (sg : SampledSubgraphImpl)
    (hmiss : sg.original_row_node_ids = none ∨ sg.original_column_node_ids = none) :
    ∃ msg, buildBlock is_het sg = Except.error (BlockErr.assertFail msg) := by
  unfold buildBlock
  rcases hmiss with hr | hc
  · rw [hr]
    exact ⟨_, rfl⟩
  · cases hrow : sg.original_row_node_ids with
    | none => exact ⟨_, rfl⟩
    | some nd =>
      rw [hc]
      exact ⟨_, rfl⟩

theorem buildBlock_ok_of_shape (is_het : Bool) (sg : SampledSubgraphImpl)
    (hshape : layerShapeOK is_het sg = true)
    (hr : sg.original_row_node_ids ≠ none)
    (hc : sg.original_column_node_ids ≠ none) :
    ∃ b, buildBlock is_het sg = Except.ok b := by
  unfold layerShapeOK pairsShapeOK idShapeOK at hshape
  unfold buildBlock
  cases hrow : sg.original_row_node_ids with
  | none => exact absurd hrow hr
  | some rid =>
    cases hcol : sg.original_column_node_ids with
    | none => exact absurd hcol hc
    | some cid =>
      rw [hrow, hcol] at hshape
      cases hnp : sg.node_pairs <;> rw [hnp] at hshape <;>
        cases rid <;> cases cid <;> cases is_het <;> simp_all

theorem buildBlocks_missing (is_het : Bool) :
    ∀ (sgs : List SampledSubgraphImpl),
    (∀ sg ∈ sgs, layerShapeOK is_het sg = true) →
    (∃ sg ∈ sgs, sg.original_row_node_ids = none ∨ sg.original_column_node_ids = none) →
    ∃ msg, buildBlocks is_het sgs = Except.error (BlockErr.assertFail msg) := by
  intro sgs
  induction sgs with
  | nil =>
    intro _ hex
    simp at hex
  | cons sg rest ihr =>
    intro hall hex
    by_cases hmiss : sg.original_row_node_ids = none ∨ sg.original_column_node_ids = none
    · obtain ⟨msg, hmsg⟩ := buildBlock_missing is_het sg hmiss
      refine ⟨msg, ?_⟩
      simp only [buildBlocks]
      rw [hmsg]
    · push_neg at hmiss
      obtain ⟨b, hb⟩ := buildBlock_ok_of_shape is_het sg (hall sg (by simp)) hmiss.1 hmiss.2
      have hex' : ∃ sg' ∈ rest,
          sg'.original_row_node_ids = none ∨ sg'.original_column_node_ids = none := by
        rcases hex with ⟨sg', hmem, hsg'⟩
        rcases List.mem_cons.mp hmem with heq | hmem'
        · subst heq
          rcases hsg' with h' | h'
          · exact absurd h' hmiss.1
          · exact absurd h' hmiss.2
        · exact ⟨sg', hmem', hsg'⟩
      obtain ⟨msg, hmsg⟩ :=
        ihr (fun s hs => hall s (List.mem_cons_of_mem _ hs)) hex'
      refine ⟨msg, ?_⟩
      simp only [buildBlocks]
      rw [hb, hmsg]

theorem to_dgl_blocks_cons (mb : MiniBatch) (sg0 : SampledSubgraphImpl)
    (rest : List SampledSubgraphImpl)
    (h1 : mb.sampled_subgraphs = some (sg0 :: rest)) :
    mb.to_dgl_blocks
      = match buildBlocks (isHetPairs sg0.node_pairs) (sg0 :: rest) with
        | Except.error e => BlocksResult.fail e
        | Except.ok blocks =>
            match (if isHetPairs sg0.node_pairs then
                     toBlocksHet mb sg0 (sg0 :: rest) blocks
                   else toBlocksHom mb sg0 (sg0 :: rest) blocks) with
            | Except.error e => BlocksResult.fail e
            | Except.ok blocks => BlocksResult.blocks blocks := by
  unfold MiniBatch.to_dgl_blocks
  rw [h1]

theorem to_dgl_blocks_ok_decomp (mb : MiniBatch) (sg0 : SampledSubgraphImpl)
    (rest : List SampledSubgraphImpl) (bs : List DGLBlock)
    (h1 : mb.sampled_subgraphs = some (sg0 :: rest))
    (h2 : mb.to_dgl_blocks = BlocksResult.blocks bs) :
    ∃ blocks0,
      buildBlocks (isHetPairs sg0.node_pairs) (sg0 :: rest) = Except.ok blocks0
        ∧ ((isHetPairs sg0.node_pairs = true
              ∧ toBlocksHet mb sg0 (sg0 :: rest) blocks0 = Except.ok bs)
            ∨ (isHetPairs sg0.node_pairs = false
              ∧ toBlocksHom mb sg0 (sg0 :: rest) blocks0 = Except.ok bs)) := by
  rw [to_dgl_blocks_cons mb sg0 rest h1] at h2
  cases hhet : isHetPairs sg0.node_pairs with
  | true =>
    rw [hhet] at h2
    simp only [eq_self_iff_true, if_true] at h2
    split at h2
    · simp at h2
    · rename_i blocks0 hb
      split at h2
      · simp at h2
      · rename_i bs' hres
        simp only [BlocksResult.blocks.injEq] at h2
        subst h2
        exact ⟨blocks0, hb, Or.inl ⟨rfl, hres⟩⟩
  | false =>
    rw [hhet] at h2
    simp only [Bool.false_eq_true, if_false] at h2
    split at h2
    · simp at h2
    · rename_i blocks0 hb
      split at h2
      · simp at h2
      · rename_i bs' hres
        simp only [BlocksResult.blocks.injEq] at h2
        subst h2
        exact ⟨blocks0, hb, Or.inr ⟨rfl, hres⟩⟩

theorem toBlocksHom_decomp (mb : MiniBatch) (sg0 : SampledSubgraphImpl)
    (sgs : List SampledSubgraphImpl) (blocks bs : List DGLBlock)
    (h : toBlocksHom mb sg0 sgs blocks = Except.ok bs) :
    ∃ bs1 bs2,
      homNodeFeatsPhase mb.node_features blocks = Except.ok bs1
        ∧ homEdgeFeatsPhase mb.edge_features bs1 = Except.ok bs2
        ∧ bs = assignEidHom
            (updateBlock0 (fun b => { b with srcdata_nid := sg0.original_row_node_ids }) bs2)
            sgs := by
  unfold toBlocksHom at h
  split at h
  · simp at h
  · rename_i bs1 hn
    split at h
    · simp at h
    · rename_i bs2 he
      simp only [Except.ok.injEq] at h
      exact ⟨bs1, bs2, hn, he, h.symm⟩

theorem toBlocksHet_decomp (mb : MiniBatch) (sg0 : SampledSubgraphImpl)
    (sgs : List SampledSubgraphImpl) (blocks bs : List DGLBlock)
    (h : toBlocksHet mb sg0 sgs blocks = Except.ok bs) :
    ∃ bs1 bs2 bs3,
      hetNodeFeatsPhase mb.node_features blocks = Except.ok bs1
        ∧ hetEdgeFeatsPhase mb.edge_features bs1 = Except.ok bs2
        ∧ assignNidHet sg0 bs2 = Except.ok bs3
        ∧ assignEidHet bs3 sgs = Except.ok bs := by
  unfold toBlocksHet at h
  split at h
  · simp at h
  · rename_i bs1 hn
    split at h
    · simp at h
    · rename_i bs2 he
      split at h
      · simp at h
      · rename_i bs3 hni
        exact ⟨bs1, bs2, bs3, hn, he, hni, h⟩

theorem toBlocksHom_ok_getElem (mb : MiniBatch) (sg0 : SampledSubgraphImpl)
    (sgs : List SampledSubgraphImpl) (blocks bs : List DGLBlock)
    (h : toBlocksHom mb sg0 sgs blocks = Except.ok bs) (i : Nat) :
    bs[i]?
      = (blocks[i]?).map (fun b =>
          applyEidHom ((sgs[i]?).bind SampledSubgraphImpl.original_edge_ids)
            (if i = 0 then
              { b with
                srcdata := b.srcdata ++ nodeFeatsHomOf mb.node_features,
                edata := b.edata ++ edataHomOf ((mb.edge_features.getD [])[i]?),
                srcdata_nid := sg0.original_row_node_ids }
             else
              { b with edata := b.edata ++ edataHomOf ((mb.edge_features.getD [])[i]?) })) := by
  obtain ⟨bs1, bs2, hn, he, hbs⟩ := toBlocksHom_decomp mb sg0 sgs blocks bs h
  subst hbs
  rw [assignEidHom_getElem, updateBlock0_getElem,
    homEdgeFeatsPhase_ok_getElem mb.edge_features bs1 bs2 he i,
    homNodeFeatsPhase_ok_getElem mb.node_features blocks bs1 hn i]
  by_cases h0 : i = 0
  · subst h0
    cases hb : blocks[0]? <;> simp [hb]
  · simp only [if_neg h0]
    cases hb : blocks[i]? <;> simp [hb]

theorem toBlocksHet_ok_getElem (mb : MiniBatch) (sg0 : SampledSubgraphImpl)
    (sgs : List SampledSubgraphImpl) (blocks bs : List DGLBlock)
    (h : toBlocksHet mb sg0 sgs blocks = Except.ok bs) (i : Nat) :
    bs[i]?
      = (blocks[i]?).map (fun b =>
          if i = 0 then
            { b with
              srcnodes_data := b.srcnodes_data ++ nodeFeatsHetOf mb.node_features,
              edata_het := b.edata_het ++ edataHetOf ((mb.edge_features.getD [])[i]?),
              srcnodes_nid := b.srcnodes_nid ++ rowsHetOf sg0.original_row_node_ids,
              edata_eid_het := b.edata_eid_het
                ++ eidHetOf ((sgs[i]?).bind SampledSubgraphImpl.original_edge_ids) }
          else
            { b with
              edata_het := b.edata_het ++ edataHetOf ((mb.edge_features.getD [])[i]?),
              edata_eid_het := b.edata_eid_het
                ++ eidHetOf ((sgs[i]?).bind SampledSubgraphImpl.original_edge_ids) }) := by
  obtain ⟨bs1, bs2, bs3, hn, he, hni, hei⟩ := toBlocksHet_decomp mb sg0 sgs blocks bs h
  obtain ⟨⟨rows, hrow⟩, hbs3⟩ := assignNidHet_ok sg0 bs2 bs3 hni
  subst hbs3
  rw [assignEidHet_ok_getElem _ sgs bs hei i, updateBlock0_getElem,
    hetEdgeFeatsPhase_ok_getElem mb.edge_features bs1 bs2 he i,
    hetNodeFeatsPhase_ok_getElem mb.node_features blocks bs1 hn i]
  by_cases h0 : i = 0
  · subst h0
    cases hb : blocks[0]? <;> simp [hb]
  · simp only [if_neg h0]
    cases hb : blocks[i]? <;> simp [hb]

theorem hetNodeFeatsPhase_ok_hom_nil (m : List (String × Feature))
    (bs bs2 : List DGLBlock)
    (h : hetNodeFeatsPhase (some (NodeFeats.hom m)) bs = Except.ok bs2) : m = [] := by
  cases m with
  | nil => rfl
  | cons kv kvs => simp [hetNodeFeatsPhase] at h

theorem homNodeFeatsPhase_ok_het_nil (m : List ((String × String) × Feature))
    (bs bs2 : List DGLBlock)
    (h : homNodeFeatsPhase (some (NodeFeats.het m)) bs = Except.ok bs2) : m = [] := by
  cases m with
  | nil => rfl
  | cons kv kvs => simp [homNodeFeatsPhase] at h

theorem assignEdgeFeatsHet_ok_hom_nil :
    ∀ (bs : List DGLBlock) (efs : List EdgeFeats) (bs2 : List DGLBlock),
    assignEdgeFeatsHet bs efs = Except.ok bs2 →
    ∀ (i : Nat) (m : List (String × Feature)),
    i < bs.length → efs[i]? = some (EdgeFeats.hom m) → m = [] := by
  intro bs
  induction bs with
  | nil =>
    intro efs bs2 h i m hi
    simp at hi
  | cons b t ih =>
    intro efs bs2 h i m hi hef
    cases efs with
    | nil => simp at hef
    | cons ef es =>
      cases i with
      | zero =>
        simp at hef
        subst hef
        cases m with
        | nil => rfl
        | cons kv kvs => simp [assignEdgeFeatsHet] at h
      | succ j =>
        have hj : j < t.length := Nat.lt_of_succ_lt_succ hi
        have hef' : es[j]? = some (EdgeFeats.hom m) := by simpa using hef
        cases ef with
        | het m' =>
          simp only [assignEdgeFeatsHet] at h
          cases hrec : assignEdgeFeatsHet t es with
          | error e => rw [hrec] at h; simp at h
          | ok bs3 => exact ih es bs3 hrec j m hj hef'
        | hom m' =>
          cases m' with
          | nil =>
            simp only [assignEdgeFeatsHet, List.isEmpty_nil, if_true] at h
            cases hrec : assignEdgeFeatsHet t es with
            | error e => rw [hrec] at h; simp at h
            | ok bs3 => exact ih es bs3 hrec j m hj hef'
          | cons kv kvs => simp [assignEdgeFeatsHet] at h

theorem assignEdgeFeatsHom_ok_het_nil :
    ∀ (bs : List DGLBlock) (efs : List EdgeFeats) (bs2 : List DGLBlock),
    assignEdgeFeatsHom bs efs = Except.ok bs2 →
    ∀ (i : Nat) (m : List ((String × String) × Feature)),
    i < bs.length → efs[i]? = some (EdgeFeats.het m) → m = [] := by
  intro bs
  induction bs with
  | nil =>
    intro efs bs2 h i m hi
    simp at hi
  | cons b t ih =>
    intro efs bs2 h i m hi hef
    cases efs with
    | nil => simp at hef
    | cons ef es =>
      cases i with
      | zero =>
        simp at hef
        subst hef
        cases m with
        | nil => rfl
        | cons kv kvs => simp [assignEdgeFeatsHom] at h
      | succ j =>
        have hj : j < t.length := Nat.lt_of_succ_lt_succ hi
        have hef' : es[j]? = some (EdgeFeats.het m) := by simpa using hef
        cases ef with
        | hom m' =>
          simp only [assignEdgeFeatsHom] at h
          cases hrec : assignEdgeFeatsHom t es with
          | error e => rw [hrec] at h; simp at h
          | ok bs3 => exact ih es bs3 hrec j m hj hef'
        | het m' =>
          cases m' with
          | nil =>
            simp only [assignEdgeFeatsHom, List.isEmpty_nil, if_true] at h
            cases hrec : assignEdgeFeatsHom t es with
            | error e => rw [hrec] at h; simp at h
            | ok bs3 => exact ih es bs3 hrec j m hj hef'
          | cons kv kvs => simp [assignEdgeFeatsHom] at h

/-! ## Claim theorems: the block transform -/

/-- C10: when `sampled_subgraphs` is `None` or the empty list,
`to_dgl_blocks` returns `None` — it neither raises nor returns an empty
block list (and, the embedding being a pure function of the minibatch, the
minibatch itself is not modified). -/
theorem to_dgl_blocks_empty_none (mb : MiniBatch)
    (h : mb.sampled_subgraphs = none ∨ mb.sampled_subgraphs = some []) :
    mb.to_dgl_blocks = BlocksResult.noneResult := by
  unfold MiniBatch.to_dgl_blocks
  rcases h with h | h <;> rw [h]

theorem to_dgl_blocks_empty_none_witness :
    mbNone.to_dgl_blocks = BlocksResult.noneResult :=
  to_dgl_blocks_empty_none mbNone (Or.inl (by decide))

/-- C5: if any layer of a non-empty, well-shaped `sampled_subgraphs` list is
missing `original_row_node_ids` or `original_column_node_ids`, then
`to_dgl_blocks` raises an assertion failure — it never returns a block
list. -/
theorem to_dgl_blocks_missing_ids (mb : MiniBatch) (sg0 : SampledSubgraphImpl)
    (rest : List SampledSubgraphImpl)
    (h1 : mb.sampled_subgraphs = some (sg0 :: rest))
    (h2 : ∀ sg ∈ sg0 :: rest, layerShapeOK (isHetPairs sg0.node_pairs) sg = true)
    (h3 : ∃ sg ∈ sg0 :: rest,
        sg.original_row_node_ids = none ∨ sg.original_column_node_ids = none) :
    mb.to_dgl_blocks.isAssertFail = true := by
  obtain ⟨msg, hmsg⟩ := buildBlocks_missing (isHetPairs sg0.node_pairs) (sg0 :: rest) h2 h3
  rw [to_dgl_blocks_cons mb sg0 rest h1, hmsg]
  rfl

theorem to_dgl_blocks_missing_ids_witness :
    mbMissing.to_dgl_blocks.isAssertFail = true :=
  to_dgl_blocks_missing_ids mbMissing sgMissingEx [] (by decide) (by decide) (by decide)

/-- C6: whenever `to_dgl_blocks` returns a block list, it has one block per
layer, and each layer's block was constructed with the layer's local
`node_pairs` as edge list, source-node count the length of the layer's
`original_row_node_ids` and destination-node count the length of its
`original_column_node_ids` (per node type in the heterogeneous case). -/
theorem to_dgl_blocks_block_dimensions (mb : MiniBatch) (sg0 : SampledSubgraphImpl)
    (rest : List SampledSubgraphImpl) (bs : List DGLBlock)
    (h1 : mb.sampled_subgraphs = some (sg0 :: rest))
    (h2 : mb.to_dgl_blocks = BlocksResult.blocks bs) :
    bs.length = (sg0 :: rest).length
      ∧ ∀ (i : Nat) (sg : SampledSubgraphImpl) (b : DGLBlock),
          (sg0 :: rest)[i]? = some sg → bs[i]? = some b →
          ((∀ (np : Tensor × Tensor) (rows cols : Tensor),
              sg.node_pairs = NodePairs.hom np →
              sg.original_row_node_ids = some (NodeData.hom rows) →
              sg.original_column_node_ids = some (NodeData.hom cols) →
              b.edges_hom = some np ∧ b.num_src_hom = some rows.length
                ∧ b.num_dst_hom = some cols.length)
            ∧ (∀ (np : List (String × (Tensor × Tensor)))
                (rows cols : List (String × Tensor)),
              sg.node_pairs = NodePairs.het np →
              sg.original_row_node_ids = some (NodeData.het rows) →
              sg.original_column_node_ids = some (NodeData.het cols) →
              b.edges_het = np.map (fun kv => (etype_str_to_tuple kv.1, kv.2))
                ∧ b.num_src_het = rows.map (fun kv => (kv.1, kv.2.length))
                ∧ b.num_dst_het = cols.map (fun kv => (kv.1, kv.2.length)))) := by
  obtain ⟨blocks0, hbb, hbranch⟩ := to_dgl_blocks_ok_decomp mb sg0 rest bs h1 h2
  have hlen0 := buildBlocks_ok_length (isHetPairs sg0.node_pairs) (sg0 :: rest) blocks0 hbb
  have hlen : bs.length = blocks0.length := by
    rcases hbranch with ⟨_, hok⟩ | ⟨_, hok⟩
    · exact length_eq_of_getElem_map blocks0 bs _
        (fun i => toBlocksHet_ok_getElem mb sg0 (sg0 :: rest) blocks0 bs hok i)
    · exact length_eq_of_getElem_map blocks0 bs _
        (fun i => toBlocksHom_ok_getElem mb sg0 (sg0 :: rest) blocks0 bs hok i)
  refine ⟨by rw [hlen, hlen0], ?_⟩
  intro i sg b hsg hb
  obtain ⟨b0, hb0, hbok⟩ :=
    buildBlocks_ok_getElem (isHetPairs sg0.node_pairs) (sg0 :: rest) blocks0 hbb i sg hsg
  rcases hbranch with ⟨_, hok⟩ | ⟨_, hok⟩
  · have hmap := toBlocksHet_ok_getElem mb sg0 (sg0 :: rest) blocks0 bs hok i
    rw [hb, hb0] at hmap
    simp only [Option.map_some', Option.some.injEq] at hmap
    subst hmap
    constructor
    · intro np rows cols hnp hr hc
      have hb0eq := buildBlock_ok_hom _ _ _ hbok np rows cols hnp hr hc
      subst hb0eq
      by_cases h0 : i = 0 <;> simp [h0, create_block_hom]
    · intro np rows cols hnp hr hc
      have hb0eq := buildBlock_ok_het _ _ _ hbok np rows cols hnp hr hc
      subst hb0eq
      by_cases h0 : i = 0 <;> simp [h0, create_block_het]
  · have hmap := toBlocksHom_ok_getElem mb sg0 (sg0 :: rest) blocks0 bs hok i
    rw [hb, hb0] at hmap
    simp only [Option.map_some', Option.some.injEq] at hmap
    subst hmap
    constructor
    · intro np rows cols hnp hr hc
      have hb0eq := buildBlock_ok_hom _ _ _ hbok np rows cols hnp hr hc
      subst hb0eq
      by_cases h0 : i = 0 <;> simp [h0, create_block_hom]
    · intro np rows cols hnp hr hc
      have hb0eq := buildBlock_ok_het _ _ _ hbok np rows cols hnp hr hc
      subst hb0eq
      by_cases h0 : i = 0 <;> simp [h0, create_block_het]

theorem to_dgl_blocks_block_dimensions_witness :
    blkEx0.edges_hom = some ([1, 2], [0, 1]) ∧ blkEx0.num_src_hom = some 3
      ∧ blkEx0.num_dst_hom = some 2 :=
  ((to_dgl_blocks_block_dimensions mbEx sgOuterEx [sgInnerEx] [blkEx0, blkEx1]
      (by decide) (by decide)).2 0 sgOuterEx blkEx0 (by decide) (by decide)).1
    ([1, 2], [0, 1]) [0, 1, 2] [0, 1] (by decide) (by decide) (by decide)

/-- C7: whenever `to_dgl_blocks` returns a block list, the minibatch's node
features are attached only to the source side of the block at index 0 (every
other block's source frames stay empty), and edge features land per layer by
zipping the feature list with the block list (a block outside the zip range
keeps an empty edge frame). -/
theorem to_dgl_blocks_feature_attachment (mb : MiniBatch) (sg0 : SampledSubgraphImpl)
    (rest : List SampledSubgraphImpl) (bs : List DGLBlock)
    (h1 : mb.sampled_subgraphs = some (sg0 :: rest))
    (h2 : mb.to_dgl_blocks = BlocksResult.blocks bs) :
    (∀ (i : Nat) (b : DGLBlock), bs[i]? = some b → 0 < i →
        b.srcdata = [] ∧ b.srcnodes_data = [])
      ∧ (∀ (m : List (String × Feature)) (b : DGLBlock),
          mb.node_features = some (NodeFeats.hom m) → bs[0]? = some b →
          b.srcdata = m)
      ∧ (∀ (m : List ((String × String) × Feature)) (b : DGLBlock),
          mb.node_features = some (NodeFeats.het m) → bs[0]? = some b →
          b.srcnodes_data = m)
      ∧ (∀ (i : Nat) (b : DGLBlock), bs[i]? = some b →
          b.edata = edataHomOf ((mb.edge_features.getD [])[i]?)
            ∧ b.edata_het = edataHetOf ((mb.edge_features.getD [])[i]?)) := by
  obtain ⟨blocks0, hbb, hbranch⟩ := to_dgl_blocks_ok_decomp mb sg0 rest bs h1 h2
  rcases hbranch with ⟨_, hok⟩ | ⟨_, hok⟩
  · -- heterogeneous branch
    obtain ⟨bs1, bs2, bs3, hn, he, hni, hei⟩ :=
      toBlocksHet_decomp mb sg0 (sg0 :: rest) blocks0 bs hok
    have hmap := fun (i : Nat) =>
      toBlocksHet_ok_getElem mb sg0 (sg0 :: rest) blocks0 bs hok i
    have hframes : ∀ (i : Nat) (b0 : DGLBlock), blocks0[i]? = some b0 →
        b0.srcdata = [] ∧ b0.srcnodes_data = [] ∧ b0.edata = [] ∧ b0.edata_het = [] := by
      intro i b0 hb0
      have hil : i < (sg0 :: rest).length := by
        have h1l := (List.getElem?_eq_some.mp hb0).1
        have h2l := buildBlocks_ok_length (isHetPairs sg0.node_pairs) (sg0 :: rest) blocks0 hbb
        omega
      have hsome : ∃ sgi, (sg0 :: rest)[i]? = some sgi := by
        rw [List.getElem?_eq_getElem hil]
        exact ⟨_, rfl⟩
      obtain ⟨sgi, hsome⟩ := hsome
      obtain ⟨b0', hb0', hbok⟩ :=
        buildBlocks_ok_getElem (isHetPairs sg0.node_pairs) (sg0 :: rest) blocks0 hbb i sgi hsome
      rw [hb0] at hb0'
      simp only [Option.some.injEq] at hb0'
      subst hb0'
      obtain ⟨f1, f2, f3, f4, _⟩ := buildBlock_ok_frames _ _ _ hbok
      exact ⟨f1, f2, f3, f4⟩
    have hbs1get : ∀ (i : Nat), bs1[i]?
        = if i = 0 then
            (blocks0[i]?).map
              (fun b => { b with srcnodes_data := b.srcnodes_data ++ nodeFeatsHetOf mb.node_features })
          else blocks0[i]? :=
      fun i => hetNodeFeatsPhase_ok_getElem mb.node_features blocks0 bs1 hn i
    refine ⟨?_, ?_, ?_, ?_⟩
    · intro i b hb hpos
      have h0 : ¬ i = 0 := by omega
      have := hmap i
      rw [hb] at this
      cases hb0 : blocks0[i]? with
      | none => rw [hb0] at this; simp at this
      | some b0 =>
        rw [hb0] at this
        simp only [Option.map_some', Option.some.injEq, if_neg h0] at this
        subst this
        obtain ⟨f1, f2, _, _⟩ := hframes i b0 hb0
        exact ⟨f1, f2⟩
    · intro m b hnf hb
      have hmnil := hetNodeFeatsPhase_ok_hom_nil m blocks0 bs1 (by rw [← hnf]; exact hn)
      subst hmnil
      have := hmap 0
      rw [hb] at this
      cases hb0 : blocks0[0]? with
      | none => rw [hb0] at this; simp at this
      | some b0 =>
        rw [hb0] at this
        simp only [Option.map_some', Option.some.injEq, if_pos rfl] at this
        subst this
        obtain ⟨f1, _, _, _⟩ := hframes 0 b0 hb0
        simp [f1]
    · intro m b hnf hb
      have := hmap 0
      rw [hb] at this
      cases hb0 : blocks0[0]? with
      | none => rw [hb0] at this; simp at this
      | some b0 =>
        rw [hb0] at this
        simp only [Option.map_some', Option.some.injEq, if_pos rfl] at this
        subst this
        obtain ⟨_, f2, _, _⟩ := hframes 0 b0 hb0
        simp [f2, hnf, nodeFeatsHetOf]
    · intro i b hb
      have := hmap i
      rw [hb] at this
      cases hb0 : blocks0[i]? with
      | none => rw [hb0] at this; simp at this
      | some b0 =>
        rw [hb0] at this
        simp only [Option.map_some', Option.some.injEq] at this
        subst this
        obtain ⟨_, _, f3, f4⟩ := hframes i b0 hb0
        have hilt : i < bs1.length := by
          have hx : bs1[i]?.isSome = true := by
            rw [hbs1get i]
            by_cases h0 : i = 0
            · subst h0
              simp [hb0]
            · simp [h0, hb0]
          rw [Option.isSome_iff_exists] at hx
          obtain ⟨x, hx⟩ := hx
          exact (List.getElem?_eq_some.mp hx).1
        have hhomnil : ∀ (m' : List (String × Feature)),
            (mb.edge_features.getD [])[i]? = some (EdgeFeats.hom m') → m' = [] := by
          intro m' hef
          cases hefs : mb.edge_features with
          | none => rw [hefs] at hef; simp at hef
          | some efl =>
            have hasg : assignEdgeFeatsHet bs1 efl = Except.ok bs2 := by
              have := he
              rw [hefs] at this
              exact this
            apply assignEdgeFeatsHet_ok_hom_nil bs1 efl bs2 hasg i m' hilt
            rw [hefs] at hef
            exact hef
        by_cases h0 : i = 0
        · subst h0
          refine ⟨?_, ?_⟩
          · rw [if_pos rfl]
            simp only [f3]
            cases hef : (mb.edge_features.getD [])[0]? with
            | none => simp [edataHomOf]
            | some ef =>
              cases ef with
              | hom m' =>
                have := hhomnil m' hef
                subst this
                simp [edataHomOf]
              | het m' => simp [edataHomOf]
          · rw [if_pos rfl]
            simp [f4]
        · refine ⟨?_, ?_⟩
          · rw [if_neg h0]
            simp only [f3]
            cases hef : (mb.edge_features.getD [])[i]? with
            | none => simp [edataHomOf]
            | some ef =>
              cases ef with
              | hom m' =>
                have := hhomnil m' hef
                subst this
                simp [edataHomOf]
              | het m' => simp [edataHomOf]
          · rw [if_neg h0]
            simp [f4]
  · -- homogeneous branch
    obtain ⟨bs1, bs2, hn, he, hbs⟩ :=
      toBlocksHom_decomp mb sg0 (sg0 :: rest) blocks0 bs hok
    have hmap := fun (i : Nat) =>
      toBlocksHom_ok_getElem mb sg0 (sg0 :: rest) blocks0 bs hok i
    have hframes : ∀ (i : Nat) (b0 : DGLBlock), blocks0[i]? = some b0 →
        b0.srcdata = [] ∧ b0.srcnodes_data = [] ∧ b0.edata = [] ∧ b0.edata_het = [] := by
      intro i b0 hb0
      have hil : i < (sg0 :: rest).length := by
        have h1l := (List.getElem?_eq_some.mp hb0).1
        have h2l := buildBlocks_ok_length (isHetPairs sg0.node_pairs) (sg0 :: rest) blocks0 hbb
        omega
      have hsome : ∃ sgi, (sg0 :: rest)[i]? = some sgi := by
        rw [List.getElem?_eq_getElem hil]
        exact ⟨_, rfl⟩
      obtain ⟨sgi, hsome⟩ := hsome
      obtain ⟨b0', hb0', hbok⟩ :=
        buildBlocks_ok_getElem (isHetPairs sg0.node_pairs) (sg0 :: rest) blocks0 hbb i sgi hsome
      rw [hb0] at hb0'
      simp only [Option.some.injEq] at hb0'
      subst hb0'
      obtain ⟨f1, f2, f3, f4, _⟩ := buildBlock_ok_frames _ _ _ hbok
      exact ⟨f1, f2, f3, f4⟩
    have hbs1get : ∀ (i : Nat), bs1[i]?
        = if i = 0 then
            (blocks0[i]?).map
              (fun b => { b with srcdata := b.srcdata ++ nodeFeatsHomOf mb.node_features })
          else blocks0[i]? :=
      fun i => homNodeFeatsPhase_ok_getElem mb.node_features blocks0 bs1 hn i
    refine ⟨?_, ?_, ?_, ?_⟩
    · intro i b hb hpos
      have h0 : ¬ i = 0 := by omega
      have := hmap i
      rw [hb] at this
      cases hb0 : blocks0[i]? with
      | none => rw [hb0] at this; simp at this
      | some b0 =>
        rw [hb0] at this
        simp only [Option.map_some', Option.some.injEq, if_neg h0] at this
        subst this
        obtain ⟨f1, f2, _, _⟩ := hframes i b0 hb0
        simp [f1, f2]
    · intro m b hnf hb
      have := hmap 0
      rw [hb] at this
      cases hb0 : blocks0[0]? with
      | none => rw [hb0] at this; simp at this
      | some b0 =>
        rw [hb0] at this
        simp only [Option.map_some', Option.some.injEq, if_pos rfl] at this
        subst this
        obtain ⟨f1, _, _, _⟩ := hframes 0 b0 hb0
        simp [f1, hnf, nodeFeatsHomOf]
    · intro m b hnf hb
      have hmnil := homNodeFeatsPhase_ok_het_nil m blocks0 bs1 (by rw [← hnf]; exact hn)
      subst hmnil
      have := hmap 0
      rw [hb] at this
      cases hb0 : blocks0[0]? with
      | none => rw [hb0] at this; simp at this
      | some b0 =>
        rw [hb0] at this
        simp only [Option.map_some', Option.some.injEq, if_pos rfl] at this
        subst this
        obtain ⟨_, f2, _, _⟩ := hframes 0 b0 hb0
        simp [f2]
    · intro i b hb
      have := hmap i
      rw [hb] at this
      cases hb0 : blocks0[i]? with
      | none => rw [hb0] at this; simp at this
      | some b0 =>
        rw [hb0] at this
        simp only [Option.map_some', Option.some.injEq] at this
        subst this
        obtain ⟨_, _, f3, f4⟩ := hframes i b0 hb0
        have hilt : i < bs1.length := by
          have hx : bs1[i]?.isSome = true := by
            rw [hbs1get i]
            by_cases h0 : i = 0
            · subst h0
              simp [hb0]
            · simp [h0, hb0]
          rw [Option.isSome_iff_exists] at hx
          obtain ⟨x, hx⟩ := hx
          exact (List.getElem?_eq_some.mp hx).1
        have hhetnil : ∀ (m' : List ((String × String) × Feature)),
            (mb.edge_features.getD [])[i]? = some (EdgeFeats.het m') → m' = [] := by
          intro m' hef
          cases hefs : mb.edge_features with
          | none => rw [hefs] at hef; simp at hef
          | some efl =>
            have hasg : assignEdgeFeatsHom bs1 efl = Except.ok bs2 := by
              have := he
              rw [hefs] at this
              exact this
            apply assignEdgeFeatsHom_ok_het_nil bs1 efl bs2 hasg i m' hilt
            rw [hefs] at hef
            exact hef
        by_cases h0 : i = 0
        · subst h0
          refine ⟨?_, ?_⟩
          · rw [if_pos rfl]
            simp [f3]
          · rw [if_pos rfl]
            simp only [applyEidHom_edata_het, f4]
            cases hef : (mb.edge_features.getD [])[0]? with
            | none => simp [edataHetOf]
            | some ef =>
              cases ef with
              | het m' =>
                have := hhetnil m' hef
                subst this
                simp [edataHetOf]
              | hom m' => simp [edataHetOf]
        · refine ⟨?_, ?_⟩
          · rw [if_neg h0]
            simp [f3]
          · rw [if_neg h0]
            simp only [applyEidHom_edata_het, f4]
            cases hef : (mb.edge_features.getD [])[i]? with
            | none => simp [edataHetOf]
            | some ef =>
              cases ef with
              | het m' =>
                have := hhetnil m' hef
                subst this
                simp [edataHetOf]
              | hom m' => simp [edataHetOf]

theorem to_dgl_blocks_feature_attachment_witness :
    blkFeat1.srcdata = [] ∧ blkFeat0.srcdata = [("x", 7)]
      ∧ blkFeat0.edata = [("w", 9)] ∧ blkFeat1.edata = [("u", 4)] := by
  have h := to_dgl_blocks_feature_attachment mbFeat sgOuterEx [sgInnerEx]
    [blkFeat0, blkFeat1] (by decide) (by decide)
  exact ⟨(h.1 1 blkFeat1 (by decide) (by decide)).1,
    h.2.1 [("x", 7)] blkFeat0 (by decide) (by decide),
    (h.2.2.2 0 blkFeat0 (by decide)).1,
    (h.2.2.2 1 blkFeat1 (by decide)).1⟩

end DGLGraphbolt
